import Mathlib

/-!
Verification development for the Armada scheduler core: a shallow embedding
of the jobdb reconciliation functions (`ReconcileDifferences`,
`reconcileJobDifferences`, `reconcileRunDifferences`,
`applyRunStateTransitions`, `schedulerJobFromDatabaseJob`,
`schedulerRunFromDatabaseRun`) and of the scheduler cycle, together with
theorems about monotone state flags, the four-case merge, version-gated
field replacement, idempotence of delta application, error propagation,
and cycle-level atomicity.

Machine integers: `uint32` values are modelled as `Nat` (with the Go
conversion `uint32(int64)` modelled via reduction mod `2^32`), `int32` and
`int64` values as `Int`.  Protobuf-encoded scheduling info is modelled as
`Option JobSchedulingInfo`: `none` stands for bytes on which
`proto.Unmarshal` fails, `some si` for bytes decoding to `si`.  Run ids
(UUIDs) are modelled as `Nat`, job ids (ULID strings) as `String`.
-/

namespace Armada

/-- The Go conversion `uint32(i)` applied to a signed integer: the low 32
bits of the two's-complement representation, i.e. `i mod 2^32`. -/
def toUInt32Nat (i : Int) : Nat := (i % ((2:Int) ^ 32)).toNat

/-- Decoded `schedulerobjects.JobSchedulingInfo`.  Beyond the version we
keep only the parts the scheduler core reads: the queue TTL, the fail-fast
annotation and the accumulated node anti-affinities of the single pod
requirement. -/
structure JobSchedulingInfo where
  version : Nat
  queueTtlSeconds : Nat
  failFast : Bool
  antiAffinityNodes : List String
deriving DecidableEq, Repr

/-- `jobdb.JobRun`: one attempted execution of a job on one executor. -/
structure JobRun where
  runId : Nat
  jobId : String
  created : Int
  executor : String
  nodeId : String
  nodeName : String
  scheduledAtPriority : Option Int
  running : Bool
  succeeded : Bool
  failed : Bool
  cancelled : Bool
  returned : Bool
  runAttempted : Bool
deriving DecidableEq, Repr

/-- `JobRun.WithRunning`. -/
def JobRun.withRunning (ru : JobRun) (b : Bool) : JobRun :=
  { ru with running := b }

/-- `JobRun.WithSucceeded`. -/
def JobRun.withSucceeded (ru : JobRun) (b : Bool) : JobRun :=
  { ru with succeeded := b }

/-- `JobRun.WithFailed`. -/
def JobRun.withFailed (ru : JobRun) (b : Bool) : JobRun :=
  { ru with failed := b }

/-- `JobRun.WithCancelled`. -/
def JobRun.withCancelled (ru : JobRun) (b : Bool) : JobRun :=
  { ru with cancelled := b }

/-- `JobRun.WithReturned`. -/
def JobRun.withReturned (ru : JobRun) (b : Bool) : JobRun :=
  { ru with returned := b }

/-- `JobRun.WithAttempted`. -/
def JobRun.withAttempted (ru : JobRun) (b : Bool) : JobRun :=
  { ru with runAttempted := b }

@[simp] theorem JobRun.withRunning_runId (ru : JobRun) (b : Bool) : (ru.withRunning b).runId = ru.runId := rfl
@[simp] theorem JobRun.withRunning_jobId (ru : JobRun) (b : Bool) : (ru.withRunning b).jobId = ru.jobId := rfl
@[simp] theorem JobRun.withRunning_created (ru : JobRun) (b : Bool) : (ru.withRunning b).created = ru.created := rfl
@[simp] theorem JobRun.withRunning_executor (ru : JobRun) (b : Bool) : (ru.withRunning b).executor = ru.executor := rfl
@[simp] theorem JobRun.withRunning_nodeId (ru : JobRun) (b : Bool) : (ru.withRunning b).nodeId = ru.nodeId := rfl
@[simp] theorem JobRun.withRunning_nodeName (ru : JobRun) (b : Bool) : (ru.withRunning b).nodeName = ru.nodeName := rfl
@[simp] theorem JobRun.withRunning_scheduledAtPriority (ru : JobRun) (b : Bool) : (ru.withRunning b).scheduledAtPriority = ru.scheduledAtPriority := rfl
@[simp] theorem JobRun.withRunning_running (ru : JobRun) (b : Bool) : (ru.withRunning b).running = b := rfl
@[simp] theorem JobRun.withRunning_succeeded (ru : JobRun) (b : Bool) : (ru.withRunning b).succeeded = ru.succeeded := rfl
@[simp] theorem JobRun.withRunning_failed (ru : JobRun) (b : Bool) : (ru.withRunning b).failed = ru.failed := rfl
@[simp] theorem JobRun.withRunning_cancelled (ru : JobRun) (b : Bool) : (ru.withRunning b).cancelled = ru.cancelled := rfl
@[simp] theorem JobRun.withRunning_returned (ru : JobRun) (b : Bool) : (ru.withRunning b).returned = ru.returned := rfl
@[simp] theorem JobRun.withRunning_runAttempted (ru : JobRun) (b : Bool) : (ru.withRunning b).runAttempted = ru.runAttempted := rfl

@[simp] theorem JobRun.withSucceeded_runId (ru : JobRun) (b : Bool) : (ru.withSucceeded b).runId = ru.runId := rfl
@[simp] theorem JobRun.withSucceeded_jobId (ru : JobRun) (b : Bool) : (ru.withSucceeded b).jobId = ru.jobId := rfl
@[simp] theorem JobRun.withSucceeded_created (ru : JobRun) (b : Bool) : (ru.withSucceeded b).created = ru.created := rfl
@[simp] theorem JobRun.withSucceeded_executor (ru : JobRun) (b : Bool) : (ru.withSucceeded b).executor = ru.executor := rfl
@[simp] theorem JobRun.withSucceeded_nodeId (ru : JobRun) (b : Bool) : (ru.withSucceeded b).nodeId = ru.nodeId := rfl
@[simp] theorem JobRun.withSucceeded_nodeName (ru : JobRun) (b : Bool) : (ru.withSucceeded b).nodeName = ru.nodeName := rfl
@[simp] theorem JobRun.withSucceeded_scheduledAtPriority (ru : JobRun) (b : Bool) : (ru.withSucceeded b).scheduledAtPriority = ru.scheduledAtPriority := rfl
@[simp] theorem JobRun.withSucceeded_running (ru : JobRun) (b : Bool) : (ru.withSucceeded b).running = ru.running := rfl
@[simp] theorem JobRun.withSucceeded_succeeded (ru : JobRun) (b : Bool) : (ru.withSucceeded b).succeeded = b := rfl
@[simp] theorem JobRun.withSucceeded_failed (ru : JobRun) (b : Bool) : (ru.withSucceeded b).failed = ru.failed := rfl
@[simp] theorem JobRun.withSucceeded_cancelled (ru : JobRun) (b : Bool) : (ru.withSucceeded b).cancelled = ru.cancelled := rfl
@[simp] theorem JobRun.withSucceeded_returned (ru : JobRun) (b : Bool) : (ru.withSucceeded b).returned = ru.returned := rfl
@[simp] theorem JobRun.withSucceeded_runAttempted (ru : JobRun) (b : Bool) : (ru.withSucceeded b).runAttempted = ru.runAttempted := rfl

@[simp] theorem JobRun.withFailed_runId (ru : JobRun) (b : Bool) : (ru.withFailed b).runId = ru.runId := rfl
@[simp] theorem JobRun.withFailed_jobId (ru : JobRun) (b : Bool) : (ru.withFailed b).jobId = ru.jobId := rfl
@[simp] theorem JobRun.withFailed_created (ru : JobRun) (b : Bool) : (ru.withFailed b).created = ru.created := rfl
@[simp] theorem JobRun.withFailed_executor (ru : JobRun) (b : Bool) : (ru.withFailed b).executor = ru.executor := rfl
@[simp] theorem JobRun.withFailed_nodeId (ru : JobRun) (b : Bool) : (ru.withFailed b).nodeId = ru.nodeId := rfl
@[simp] theorem JobRun.withFailed_nodeName (ru : JobRun) (b : Bool) : (ru.withFailed b).nodeName = ru.nodeName := rfl
@[simp] theorem JobRun.withFailed_scheduledAtPriority (ru : JobRun) (b : Bool) : (ru.withFailed b).scheduledAtPriority = ru.scheduledAtPriority := rfl
@[simp] theorem JobRun.withFailed_running (ru : JobRun) (b : Bool) : (ru.withFailed b).running = ru.running := rfl
@[simp] theorem JobRun.withFailed_succeeded (ru : JobRun) (b : Bool) : (ru.withFailed b).succeeded = ru.succeeded := rfl
@[simp] theorem JobRun.withFailed_failed (ru : JobRun) (b : Bool) : (ru.withFailed b).failed = b := rfl
@[simp] theorem JobRun.withFailed_cancelled (ru : JobRun) (b : Bool) : (ru.withFailed b).cancelled = ru.cancelled := rfl
@[simp] theorem JobRun.withFailed_returned (ru : JobRun) (b : Bool) : (ru.withFailed b).returned = ru.returned := rfl
@[simp] theorem JobRun.withFailed_runAttempted (ru : JobRun) (b : Bool) : (ru.withFailed b).runAttempted = ru.runAttempted := rfl

@[simp] theorem JobRun.withCancelled_runId (ru : JobRun) (b : Bool) : (ru.withCancelled b).runId = ru.runId := rfl
@[simp] theorem JobRun.withCancelled_jobId (ru : JobRun) (b : Bool) : (ru.withCancelled b).jobId = ru.jobId := rfl
@[simp] theorem JobRun.withCancelled_created (ru : JobRun) (b : Bool) : (ru.withCancelled b).created = ru.created := rfl
@[simp] theorem JobRun.withCancelled_executor (ru : JobRun) (b : Bool) : (ru.withCancelled b).executor = ru.executor := rfl
@[simp] theorem JobRun.withCancelled_nodeId (ru : JobRun) (b : Bool) : (ru.withCancelled b).nodeId = ru.nodeId := rfl
@[simp] theorem JobRun.withCancelled_nodeName (ru : JobRun) (b : Bool) : (ru.withCancelled b).nodeName = ru.nodeName := rfl
@[simp] theorem JobRun.withCancelled_scheduledAtPriority (ru : JobRun) (b : Bool) : (ru.withCancelled b).scheduledAtPriority = ru.scheduledAtPriority := rfl
@[simp] theorem JobRun.withCancelled_running (ru : JobRun) (b : Bool) : (ru.withCancelled b).running = ru.running := rfl
@[simp] theorem JobRun.withCancelled_succeeded (ru : JobRun) (b : Bool) : (ru.withCancelled b).succeeded = ru.succeeded := rfl
@[simp] theorem JobRun.withCancelled_failed (ru : JobRun) (b : Bool) : (ru.withCancelled b).failed = ru.failed := rfl
@[simp] theorem JobRun.withCancelled_cancelled (ru : JobRun) (b : Bool) : (ru.withCancelled b).cancelled = b := rfl
@[simp] theorem JobRun.withCancelled_returned (ru : JobRun) (b : Bool) : (ru.withCancelled b).returned = ru.returned := rfl
@[simp] theorem JobRun.withCancelled_runAttempted (ru : JobRun) (b : Bool) : (ru.withCancelled b).runAttempted = ru.runAttempted := rfl

@[simp] theorem JobRun.withReturned_runId (ru : JobRun) (b : Bool) : (ru.withReturned b).runId = ru.runId := rfl
@[simp] theorem JobRun.withReturned_jobId (ru : JobRun) (b : Bool) : (ru.withReturned b).jobId = ru.jobId := rfl
@[simp] theorem JobRun.withReturned_created (ru : JobRun) (b : Bool) : (ru.withReturned b).created = ru.created := rfl
@[simp] theorem JobRun.withReturned_executor (ru : JobRun) (b : Bool) : (ru.withReturned b).executor = ru.executor := rfl
@[simp] theorem JobRun.withReturned_nodeId (ru : JobRun) (b : Bool) : (ru.withReturned b).nodeId = ru.nodeId := rfl
@[simp] theorem JobRun.withReturned_nodeName (ru : JobRun) (b : Bool) : (ru.withReturned b).nodeName = ru.nodeName := rfl
@[simp] theorem JobRun.withReturned_scheduledAtPriority (ru : JobRun) (b : Bool) : (ru.withReturned b).scheduledAtPriority = ru.scheduledAtPriority := rfl
@[simp] theorem JobRun.withReturned_running (ru : JobRun) (b : Bool) : (ru.withReturned b).running = ru.running := rfl
@[simp] theorem JobRun.withReturned_succeeded (ru : JobRun) (b : Bool) : (ru.withReturned b).succeeded = ru.succeeded := rfl
@[simp] theorem JobRun.withReturned_failed (ru : JobRun) (b : Bool) : (ru.withReturned b).failed = ru.failed := rfl
@[simp] theorem JobRun.withReturned_cancelled (ru : JobRun) (b : Bool) : (ru.withReturned b).cancelled = ru.cancelled := rfl
@[simp] theorem JobRun.withReturned_returned (ru : JobRun) (b : Bool) : (ru.withReturned b).returned = b := rfl
@[simp] theorem JobRun.withReturned_runAttempted (ru : JobRun) (b : Bool) : (ru.withReturned b).runAttempted = ru.runAttempted := rfl

@[simp] theorem JobRun.withAttempted_runId (ru : JobRun) (b : Bool) : (ru.withAttempted b).runId = ru.runId := rfl
@[simp] theorem JobRun.withAttempted_jobId (ru : JobRun) (b : Bool) : (ru.withAttempted b).jobId = ru.jobId := rfl
@[simp] theorem JobRun.withAttempted_created (ru : JobRun) (b : Bool) : (ru.withAttempted b).created = ru.created := rfl
@[simp] theorem JobRun.withAttempted_executor (ru : JobRun) (b : Bool) : (ru.withAttempted b).executor = ru.executor := rfl
@[simp] theorem JobRun.withAttempted_nodeId (ru : JobRun) (b : Bool) : (ru.withAttempted b).nodeId = ru.nodeId := rfl
@[simp] theorem JobRun.withAttempted_nodeName (ru : JobRun) (b : Bool) : (ru.withAttempted b).nodeName = ru.nodeName := rfl
@[simp] theorem JobRun.withAttempted_scheduledAtPriority (ru : JobRun) (b : Bool) : (ru.withAttempted b).scheduledAtPriority = ru.scheduledAtPriority := rfl
@[simp] theorem JobRun.withAttempted_running (ru : JobRun) (b : Bool) : (ru.withAttempted b).running = ru.running := rfl
@[simp] theorem JobRun.withAttempted_succeeded (ru : JobRun) (b : Bool) : (ru.withAttempted b).succeeded = ru.succeeded := rfl
@[simp] theorem JobRun.withAttempted_failed (ru : JobRun) (b : Bool) : (ru.withAttempted b).failed = ru.failed := rfl
@[simp] theorem JobRun.withAttempted_cancelled (ru : JobRun) (b : Bool) : (ru.withAttempted b).cancelled = ru.cancelled := rfl
@[simp] theorem JobRun.withAttempted_returned (ru : JobRun) (b : Bool) : (ru.withAttempted b).returned = ru.returned := rfl
@[simp] theorem JobRun.withAttempted_runAttempted (ru : JobRun) (b : Bool) : (ru.withAttempted b).runAttempted = b := rfl

/-- `jobdb.Job`: an immutable job snapshot.  `runs` is kept in the order
runs were attached, newest last, mirroring the run collection the Go jobdb
keys by run id. -/
structure Job where
  id : String
  jobSet : String
  queue : String
  requestedPriority : Nat
  schedulingInfo : JobSchedulingInfo
  queued : Bool
  queuedVersion : Int
  cancelRequested : Bool
  cancelByJobsetRequested : Bool
  cancelled : Bool
  succeeded : Bool
  failed : Bool
  submitted : Int
  runs : List JobRun
deriving DecidableEq, Repr

/-- `Job.WithCancelRequested`. -/
def Job.withCancelRequested (j : Job) (b : Bool) : Job :=
  { j with cancelRequested := b }

/-- `Job.WithCancelByJobsetRequested`. -/
def Job.withCancelByJobsetRequested (j : Job) (b : Bool) : Job :=
  { j with cancelByJobsetRequested := b }

/-- `Job.WithCancelled`. -/
def Job.withCancelled (j : Job) (b : Bool) : Job :=
  { j with cancelled := b }

/-- `Job.WithSucceeded`. -/
def Job.withSucceeded (j : Job) (b : Bool) : Job :=
  { j with succeeded := b }

/-- `Job.WithFailed`. -/
def Job.withFailed (j : Job) (b : Bool) : Job :=
  { j with failed := b }

/-- `Job.WithQueued`. -/
def Job.withQueued (j : Job) (b : Bool) : Job :=
  { j with queued := b }

/-- `Job.WithRequestedPriority`. -/
def Job.withRequestedPriority (j : Job) (b : Nat) : Job :=
  { j with requestedPriority := b }

/-- `Job.WithQueuedVersion`. -/
def Job.withQueuedVersion (j : Job) (b : Int) : Job :=
  { j with queuedVersion := b }

/-- `Job.WithJobSchedulingInfo`. -/
def Job.withJobSchedulingInfo (j : Job) (b : JobSchedulingInfo) : Job :=
  { j with schedulingInfo := b }

@[simp] theorem Job.withCancelRequested_id (j : Job) (b : Bool) : (j.withCancelRequested b).id = j.id := rfl
@[simp] theorem Job.withCancelRequested_jobSet (j : Job) (b : Bool) : (j.withCancelRequested b).jobSet = j.jobSet := rfl
@[simp] theorem Job.withCancelRequested_queue (j : Job) (b : Bool) : (j.withCancelRequested b).queue = j.queue := rfl
@[simp] theorem Job.withCancelRequested_requestedPriority (j : Job) (b : Bool) : (j.withCancelRequested b).requestedPriority = j.requestedPriority := rfl
@[simp] theorem Job.withCancelRequested_schedulingInfo (j : Job) (b : Bool) : (j.withCancelRequested b).schedulingInfo = j.schedulingInfo := rfl
@[simp] theorem Job.withCancelRequested_queued (j : Job) (b : Bool) : (j.withCancelRequested b).queued = j.queued := rfl
@[simp] theorem Job.withCancelRequested_queuedVersion (j : Job) (b : Bool) : (j.withCancelRequested b).queuedVersion = j.queuedVersion := rfl
@[simp] theorem Job.withCancelRequested_cancelRequested (j : Job) (b : Bool) : (j.withCancelRequested b).cancelRequested = b := rfl
@[simp] theorem Job.withCancelRequested_cancelByJobsetRequested (j : Job) (b : Bool) : (j.withCancelRequested b).cancelByJobsetRequested = j.cancelByJobsetRequested := rfl
@[simp] theorem Job.withCancelRequested_cancelled (j : Job) (b : Bool) : (j.withCancelRequested b).cancelled = j.cancelled := rfl
@[simp] theorem Job.withCancelRequested_succeeded (j : Job) (b : Bool) : (j.withCancelRequested b).succeeded = j.succeeded := rfl
@[simp] theorem Job.withCancelRequested_failed (j : Job) (b : Bool) : (j.withCancelRequested b).failed = j.failed := rfl
@[simp] theorem Job.withCancelRequested_submitted (j : Job) (b : Bool) : (j.withCancelRequested b).submitted = j.submitted := rfl
@[simp] theorem Job.withCancelRequested_runs (j : Job) (b : Bool) : (j.withCancelRequested b).runs = j.runs := rfl

@[simp] theorem Job.withCancelByJobsetRequested_id (j : Job) (b : Bool) : (j.withCancelByJobsetRequested b).id = j.id := rfl
@[simp] theorem Job.withCancelByJobsetRequested_jobSet (j : Job) (b : Bool) : (j.withCancelByJobsetRequested b).jobSet = j.jobSet := rfl
@[simp] theorem Job.withCancelByJobsetRequested_queue (j : Job) (b : Bool) : (j.withCancelByJobsetRequested b).queue = j.queue := rfl
@[simp] theorem Job.withCancelByJobsetRequested_requestedPriority (j : Job) (b : Bool) : (j.withCancelByJobsetRequested b).requestedPriority = j.requestedPriority := rfl
@[simp] theorem Job.withCancelByJobsetRequested_schedulingInfo (j : Job) (b : Bool) : (j.withCancelByJobsetRequested b).schedulingInfo = j.schedulingInfo := rfl
@[simp] theorem Job.withCancelByJobsetRequested_queued (j : Job) (b : Bool) : (j.withCancelByJobsetRequested b).queued = j.queued := rfl
@[simp] theorem Job.withCancelByJobsetRequested_queuedVersion (j : Job) (b : Bool) : (j.withCancelByJobsetRequested b).queuedVersion = j.queuedVersion := rfl
@[simp] theorem Job.withCancelByJobsetRequested_cancelRequested (j : Job) (b : Bool) : (j.withCancelByJobsetRequested b).cancelRequested = j.cancelRequested := rfl
@[simp] theorem Job.withCancelByJobsetRequested_cancelByJobsetRequested (j : Job) (b : Bool) : (j.withCancelByJobsetRequested b).cancelByJobsetRequested = b := rfl
@[simp] theorem Job.withCancelByJobsetRequested_cancelled (j : Job) (b : Bool) : (j.withCancelByJobsetRequested b).cancelled = j.cancelled := rfl
@[simp] theorem Job.withCancelByJobsetRequested_succeeded (j : Job) (b : Bool) : (j.withCancelByJobsetRequested b).succeeded = j.succeeded := rfl
@[simp] theorem Job.withCancelByJobsetRequested_failed (j : Job) (b : Bool) : (j.withCancelByJobsetRequested b).failed = j.failed := rfl
@[simp] theorem Job.withCancelByJobsetRequested_submitted (j : Job) (b : Bool) : (j.withCancelByJobsetRequested b).submitted = j.submitted := rfl
@[simp] theorem Job.withCancelByJobsetRequested_runs (j : Job) (b : Bool) : (j.withCancelByJobsetRequested b).runs = j.runs := rfl

@[simp] theorem Job.withCancelled_id (j : Job) (b : Bool) : (j.withCancelled b).id = j.id := rfl
@[simp] theorem Job.withCancelled_jobSet (j : Job) (b : Bool) : (j.withCancelled b).jobSet = j.jobSet := rfl
@[simp] theorem Job.withCancelled_queue (j : Job) (b : Bool) : (j.withCancelled b).queue = j.queue := rfl
@[simp] theorem Job.withCancelled_requestedPriority (j : Job) (b : Bool) : (j.withCancelled b).requestedPriority = j.requestedPriority := rfl
@[simp] theorem Job.withCancelled_schedulingInfo (j : Job) (b : Bool) : (j.withCancelled b).schedulingInfo = j.schedulingInfo := rfl
@[simp] theorem Job.withCancelled_queued (j : Job) (b : Bool) : (j.withCancelled b).queued = j.queued := rfl
@[simp] theorem Job.withCancelled_queuedVersion (j : Job) (b : Bool) : (j.withCancelled b).queuedVersion = j.queuedVersion := rfl
@[simp] theorem Job.withCancelled_cancelRequested (j : Job) (b : Bool) : (j.withCancelled b).cancelRequested = j.cancelRequested := rfl
@[simp] theorem Job.withCancelled_cancelByJobsetRequested (j : Job) (b : Bool) : (j.withCancelled b).cancelByJobsetRequested = j.cancelByJobsetRequested := rfl
@[simp] theorem Job.withCancelled_cancelled_j (j : Job) (b : Bool) : (j.withCancelled b).cancelled = b := rfl
@[simp] theorem Job.withCancelled_succeeded_j (j : Job) (b : Bool) : (j.withCancelled b).succeeded = j.succeeded := rfl
@[simp] theorem Job.withCancelled_failed_j (j : Job) (b : Bool) : (j.withCancelled b).failed = j.failed := rfl
@[simp] theorem Job.withCancelled_submitted (j : Job) (b : Bool) : (j.withCancelled b).submitted = j.submitted := rfl
@[simp] theorem Job.withCancelled_runs (j : Job) (b : Bool) : (j.withCancelled b).runs = j.runs := rfl

@[simp] theorem Job.withSucceeded_id (j : Job) (b : Bool) : (j.withSucceeded b).id = j.id := rfl
@[simp] theorem Job.withSucceeded_jobSet (j : Job) (b : Bool) : (j.withSucceeded b).jobSet = j.jobSet := rfl
@[simp] theorem Job.withSucceeded_queue (j : Job) (b : Bool) : (j.withSucceeded b).queue = j.queue := rfl
@[simp] theorem Job.withSucceeded_requestedPriority (j : Job) (b : Bool) : (j.withSucceeded b).requestedPriority = j.requestedPriority := rfl
@[simp] theorem Job.withSucceeded_schedulingInfo (j : Job) (b : Bool) : (j.withSucceeded b).schedulingInfo = j.schedulingInfo := rfl
@[simp] theorem Job.withSucceeded_queued (j : Job) (b : Bool) : (j.withSucceeded b).queued = j.queued := rfl
@[simp] theorem Job.withSucceeded_queuedVersion (j : Job) (b : Bool) : (j.withSucceeded b).queuedVersion = j.queuedVersion := rfl
@[simp] theorem Job.withSucceeded_cancelRequested (j : Job) (b : Bool) : (j.withSucceeded b).cancelRequested = j.cancelRequested := rfl
@[simp] theorem Job.withSucceeded_cancelByJobsetRequested (j : Job) (b : Bool) : (j.withSucceeded b).cancelByJobsetRequested = j.cancelByJobsetRequested := rfl
@[simp] theorem Job.withSucceeded_cancelled_j (j : Job) (b : Bool) : (j.withSucceeded b).cancelled = j.cancelled := rfl
@[simp] theorem Job.withSucceeded_succeeded_j (j : Job) (b : Bool) : (j.withSucceeded b).succeeded = b := rfl
@[simp] theorem Job.withSucceeded_failed_j (j : Job) (b : Bool) : (j.withSucceeded b).failed = j.failed := rfl
@[simp] theorem Job.withSucceeded_submitted (j : Job) (b : Bool) : (j.withSucceeded b).submitted = j.submitted := rfl
@[simp] theorem Job.withSucceeded_runs (j : Job) (b : Bool) : (j.withSucceeded b).runs = j.runs := rfl

@[simp] theorem Job.withFailed_id (j : Job) (b : Bool) : (j.withFailed b).id = j.id := rfl
@[simp] theorem Job.withFailed_jobSet (j : Job) (b : Bool) : (j.withFailed b).jobSet = j.jobSet := rfl
@[simp] theorem Job.withFailed_queue (j : Job) (b : Bool) : (j.withFailed b).queue = j.queue := rfl
@[simp] theorem Job.withFailed_requestedPriority (j : Job) (b : Bool) : (j.withFailed b).requestedPriority = j.requestedPriority := rfl
@[simp] theorem Job.withFailed_schedulingInfo (j : Job) (b : Bool) : (j.withFailed b).schedulingInfo = j.schedulingInfo := rfl
@[simp] theorem Job.withFailed_queued (j : Job) (b : Bool) : (j.withFailed b).queued = j.queued := rfl
@[simp] theorem Job.withFailed_queuedVersion (j : Job) (b : Bool) : (j.withFailed b).queuedVersion = j.queuedVersion := rfl
@[simp] theorem Job.withFailed_cancelRequested (j : Job) (b : Bool) : (j.withFailed b).cancelRequested = j.cancelRequested := rfl
@[simp] theorem Job.withFailed_cancelByJobsetRequested (j : Job) (b : Bool) : (j.withFailed b).cancelByJobsetRequested = j.cancelByJobsetRequested := rfl
@[simp] theorem Job.withFailed_cancelled_j (j : Job) (b : Bool) : (j.withFailed b).cancelled = j.cancelled := rfl
@[simp] theorem Job.withFailed_succeeded_j (j : Job) (b : Bool) : (j.withFailed b).succeeded = j.succeeded := rfl
@[simp] theorem Job.withFailed_failed_j (j : Job) (b : Bool) : (j.withFailed b).failed = b := rfl
@[simp] theorem Job.withFailed_submitted (j : Job) (b : Bool) : (j.withFailed b).submitted = j.submitted := rfl
@[simp] theorem Job.withFailed_runs (j : Job) (b : Bool) : (j.withFailed b).runs = j.runs := rfl

@[simp] theorem Job.withQueued_id (j : Job) (b : Bool) : (j.withQueued b).id = j.id := rfl
@[simp] theorem Job.withQueued_jobSet (j : Job) (b : Bool) : (j.withQueued b).jobSet = j.jobSet := rfl
@[simp] theorem Job.withQueued_queue (j : Job) (b : Bool) : (j.withQueued b).queue = j.queue := rfl
@[simp] theorem Job.withQueued_requestedPriority (j : Job) (b : Bool) : (j.withQueued b).requestedPriority = j.requestedPriority := rfl
@[simp] theorem Job.withQueued_schedulingInfo (j : Job) (b : Bool) : (j.withQueued b).schedulingInfo = j.schedulingInfo := rfl
@[simp] theorem Job.withQueued_queued (j : Job) (b : Bool) : (j.withQueued b).queued = b := rfl
@[simp] theorem Job.withQueued_queuedVersion (j : Job) (b : Bool) : (j.withQueued b).queuedVersion = j.queuedVersion := rfl
@[simp] theorem Job.withQueued_cancelRequested (j : Job) (b : Bool) : (j.withQueued b).cancelRequested = j.cancelRequested := rfl
@[simp] theorem Job.withQueued_cancelByJobsetRequested (j : Job) (b : Bool) : (j.withQueued b).cancelByJobsetRequested = j.cancelByJobsetRequested := rfl
@[simp] theorem Job.withQueued_cancelled (j : Job) (b : Bool) : (j.withQueued b).cancelled = j.cancelled := rfl
@[simp] theorem Job.withQueued_succeeded (j : Job) (b : Bool) : (j.withQueued b).succeeded = j.succeeded := rfl
@[simp] theorem Job.withQueued_failed (j : Job) (b : Bool) : (j.withQueued b).failed = j.failed := rfl
@[simp] theorem Job.withQueued_submitted (j : Job) (b : Bool) : (j.withQueued b).submitted = j.submitted := rfl
@[simp] theorem Job.withQueued_runs (j : Job) (b : Bool) : (j.withQueued b).runs = j.runs := rfl

@[simp] theorem Job.withRequestedPriority_id (j : Job) (b : Nat) : (j.withRequestedPriority b).id = j.id := rfl
@[simp] theorem Job.withRequestedPriority_jobSet (j : Job) (b : Nat) : (j.withRequestedPriority b).jobSet = j.jobSet := rfl
@[simp] theorem Job.withRequestedPriority_queue (j : Job) (b : Nat) : (j.withRequestedPriority b).queue = j.queue := rfl
@[simp] theorem Job.withRequestedPriority_requestedPriority (j : Job) (b : Nat) : (j.withRequestedPriority b).requestedPriority = b := rfl
@[simp] theorem Job.withRequestedPriority_schedulingInfo (j : Job) (b : Nat) : (j.withRequestedPriority b).schedulingInfo = j.schedulingInfo := rfl
@[simp] theorem Job.withRequestedPriority_queued (j : Job) (b : Nat) : (j.withRequestedPriority b).queued = j.queued := rfl
@[simp] theorem Job.withRequestedPriority_queuedVersion (j : Job) (b : Nat) : (j.withRequestedPriority b).queuedVersion = j.queuedVersion := rfl
@[simp] theorem Job.withRequestedPriority_cancelRequested (j : Job) (b : Nat) : (j.withRequestedPriority b).cancelRequested = j.cancelRequested := rfl
@[simp] theorem Job.withRequestedPriority_cancelByJobsetRequested (j : Job) (b : Nat) : (j.withRequestedPriority b).cancelByJobsetRequested = j.cancelByJobsetRequested := rfl
@[simp] theorem Job.withRequestedPriority_cancelled (j : Job) (b : Nat) : (j.withRequestedPriority b).cancelled = j.cancelled := rfl
@[simp] theorem Job.withRequestedPriority_succeeded (j : Job) (b : Nat) : (j.withRequestedPriority b).succeeded = j.succeeded := rfl
@[simp] theorem Job.withRequestedPriority_failed (j : Job) (b : Nat) : (j.withRequestedPriority b).failed = j.failed := rfl
@[simp] theorem Job.withRequestedPriority_submitted (j : Job) (b : Nat) : (j.withRequestedPriority b).submitted = j.submitted := rfl
@[simp] theorem Job.withRequestedPriority_runs (j : Job) (b : Nat) : (j.withRequestedPriority b).runs = j.runs := rfl

@[simp] theorem Job.withQueuedVersion_id (j : Job) (b : Int) : (j.withQueuedVersion b).id = j.id := rfl
@[simp] theorem Job.withQueuedVersion_jobSet (j : Job) (b : Int) : (j.withQueuedVersion b).jobSet = j.jobSet := rfl
@[simp] theorem Job.withQueuedVersion_queue (j : Job) (b : Int) : (j.withQueuedVersion b).queue = j.queue := rfl
@[simp] theorem Job.withQueuedVersion_requestedPriority (j : Job) (b : Int) : (j.withQueuedVersion b).requestedPriority = j.requestedPriority := rfl
@[simp] theorem Job.withQueuedVersion_schedulingInfo (j : Job) (b : Int) : (j.withQueuedVersion b).schedulingInfo = j.schedulingInfo := rfl
@[simp] theorem Job.withQueuedVersion_queued (j : Job) (b : Int) : (j.withQueuedVersion b).queued = j.queued := rfl
@[simp] theorem Job.withQueuedVersion_queuedVersion (j : Job) (b : Int) : (j.withQueuedVersion b).queuedVersion = b := rfl
@[simp] theorem Job.withQueuedVersion_cancelRequested (j : Job) (b : Int) : (j.withQueuedVersion b).cancelRequested = j.cancelRequested := rfl
@[simp] theorem Job.withQueuedVersion_cancelByJobsetRequested (j : Job) (b : Int) : (j.withQueuedVersion b).cancelByJobsetRequested = j.cancelByJobsetRequested := rfl
@[simp] theorem Job.withQueuedVersion_cancelled (j : Job) (b : Int) : (j.withQueuedVersion b).cancelled = j.cancelled := rfl
@[simp] theorem Job.withQueuedVersion_succeeded (j : Job) (b : Int) : (j.withQueuedVersion b).succeeded = j.succeeded := rfl
@[simp] theorem Job.withQueuedVersion_failed (j : Job) (b : Int) : (j.withQueuedVersion b).failed = j.failed := rfl
@[simp] theorem Job.withQueuedVersion_submitted (j : Job) (b : Int) : (j.withQueuedVersion b).submitted = j.submitted := rfl
@[simp] theorem Job.withQueuedVersion_runs (j : Job) (b : Int) : (j.withQueuedVersion b).runs = j.runs := rfl

@[simp] theorem Job.withJobSchedulingInfo_id (j : Job) (b : JobSchedulingInfo) : (j.withJobSchedulingInfo b).id = j.id := rfl
@[simp] theorem Job.withJobSchedulingInfo_jobSet (j : Job) (b : JobSchedulingInfo) : (j.withJobSchedulingInfo b).jobSet = j.jobSet := rfl
@[simp] theorem Job.withJobSchedulingInfo_queue (j : Job) (b : JobSchedulingInfo) : (j.withJobSchedulingInfo b).queue = j.queue := rfl
@[simp] theorem Job.withJobSchedulingInfo_requestedPriority (j : Job) (b : JobSchedulingInfo) : (j.withJobSchedulingInfo b).requestedPriority = j.requestedPriority := rfl
@[simp] theorem Job.withJobSchedulingInfo_schedulingInfo (j : Job) (b : JobSchedulingInfo) : (j.withJobSchedulingInfo b).schedulingInfo = b := rfl
@[simp] theorem Job.withJobSchedulingInfo_queued (j : Job) (b : JobSchedulingInfo) : (j.withJobSchedulingInfo b).queued = j.queued := rfl
@[simp] theorem Job.withJobSchedulingInfo_queuedVersion (j : Job) (b : JobSchedulingInfo) : (j.withJobSchedulingInfo b).queuedVersion = j.queuedVersion := rfl
@[simp] theorem Job.withJobSchedulingInfo_cancelRequested (j : Job) (b : JobSchedulingInfo) : (j.withJobSchedulingInfo b).cancelRequested = j.cancelRequested := rfl
@[simp] theorem Job.withJobSchedulingInfo_cancelByJobsetRequested (j : Job) (b : JobSchedulingInfo) : (j.withJobSchedulingInfo b).cancelByJobsetRequested = j.cancelByJobsetRequested := rfl
@[simp] theorem Job.withJobSchedulingInfo_cancelled (j : Job) (b : JobSchedulingInfo) : (j.withJobSchedulingInfo b).cancelled = j.cancelled := rfl
@[simp] theorem Job.withJobSchedulingInfo_succeeded (j : Job) (b : JobSchedulingInfo) : (j.withJobSchedulingInfo b).succeeded = j.succeeded := rfl
@[simp] theorem Job.withJobSchedulingInfo_failed (j : Job) (b : JobSchedulingInfo) : (j.withJobSchedulingInfo b).failed = j.failed := rfl
@[simp] theorem Job.withJobSchedulingInfo_submitted (j : Job) (b : JobSchedulingInfo) : (j.withJobSchedulingInfo b).submitted = j.submitted := rfl
@[simp] theorem Job.withJobSchedulingInfo_runs (j : Job) (b : JobSchedulingInfo) : (j.withJobSchedulingInfo b).runs = j.runs := rfl


/-- `database.Job`: a job row from the repository delta feed.
`schedulingInfoBytes = none` models a `SchedulingInfo` byte slice that
fails to unmarshal. -/
structure DbJob where
  jobId : String
  jobSet : String
  queue : String
  queued : Bool
  queuedVersion : Int
  priority : Int
  submitted : Int
  cancelRequested : Bool
  cancelByJobsetRequested : Bool
  cancelled : Bool
  succeeded : Bool
  failed : Bool
  schedulingInfoBytes : Option JobSchedulingInfo
  schedulingInfoVersion : Nat
  serial : Int
deriving DecidableEq, Repr

/-- `database.Run`: a run row from the repository delta feed.
`pendingTimestampSet` models `PendingTimestamp != nil`. -/
structure DbRun where
  runId : Nat
  jobId : String
  jobSet : String
  executor : String
  node : String
  created : Int
  scheduledAtPriority : Option Int
  pendingTimestampSet : Bool
  running : Bool
  succeeded : Bool
  failed : Bool
  cancelled : Bool
  returned : Bool
  runAttempted : Bool
  serial : Int
deriving DecidableEq, Repr

/-- `jobdb.JobStateTransitions`: the updated job bundled with cumulative
booleans recording which state transitions were applied to produce it. -/
structure JobStateTransitions where
  job : Option Job
  queued : Bool
  scheduled : Bool
  pending : Bool
  running : Bool
  cancelled : Bool
  preempted : Bool
  failed : Bool
  succeeded : Bool
deriving DecidableEq, Repr

/-- `jobdb.RunStateTransitions`: same as `JobStateTransitions` for runs. -/
structure RunStateTransitions where
  jobRun : Option JobRun
  scheduled : Bool
  returned : Bool
  pending : Bool
  running : Bool
  cancelled : Bool
  preempted : Bool
  failed : Bool
  succeeded : Bool
deriving DecidableEq, Repr

def emptyJST : JobStateTransitions :=
  ⟨none, false, false, false, false, false, false, false, false⟩

def emptyRST : RunStateTransitions :=
  ⟨none, false, false, false, false, false, false, false, false⟩

/-- `JobStateTransitions.applyRunStateTransitions`: applies the state
transitions of a run to those of the associated job.  The run's `Returned`
transition feeds the job's `Queued` transition; every other flag is OR-ed
into the same-named job flag. -/
def JobStateTransitions.applyRunStateTransitions
    (jst : JobStateTransitions) (rst : RunStateTransitions) : JobStateTransitions :=
  { jst with
    queued := jst.queued || rst.returned
    scheduled := jst.scheduled || rst.scheduled
    pending := jst.pending || rst.pending
    running := jst.running || rst.running
    cancelled := jst.cancelled || rst.cancelled
    preempted := jst.preempted || rst.preempted
    failed := jst.failed || rst.failed
    succeeded := jst.succeeded || rst.succeeded }

/-- `api.NodeIdFromExecutorAndNodeName`: executor id concatenated with the
node name. -/
def nodeIdFromExecutorAndNodeName (executor node : String) : String :=
  executor ++ "-" ++ node

/-- `jobDb.schedulerRunFromDatabaseRun`: creates a new scheduler job run
from a database run row, copying all state flags verbatim. -/
def schedulerRunFromDatabaseRun (dbRun : DbRun) : JobRun :=
  { runId := dbRun.runId
    jobId := dbRun.jobId
    created := dbRun.created
    executor := dbRun.executor
    nodeId := nodeIdFromExecutorAndNodeName dbRun.executor dbRun.node
    nodeName := dbRun.node
    scheduledAtPriority := dbRun.scheduledAtPriority
    running := dbRun.running
    succeeded := dbRun.succeeded
    failed := dbRun.failed
    cancelled := dbRun.cancelled
    returned := dbRun.returned
    runAttempted := dbRun.runAttempted }

/-- The both-present branch of `jobDb.reconcileRunDifferences`: the chain of
conditional flag updates on an existing run, together with the run state
transitions that fired.  Each flag only ever transitions `false → true`;
`RunAttempted` is updated on the run but records no transition. -/
def mergeRun (ru0 : JobRun) (dr : DbRun) : JobRun × RunStateTransitions :=
  let ru1 := if dr.running && !ru0.running then ru0.withRunning true else ru0
  let ru2 := if dr.succeeded && !ru1.succeeded then ru1.withSucceeded true else ru1
  let ru3 := if dr.failed && !ru2.failed then ru2.withFailed true else ru2
  let ru4 := if dr.cancelled && !ru3.cancelled then ru3.withCancelled true else ru3
  let ru5 := if dr.returned && !ru4.returned then ru4.withReturned true else ru4
  let ru6 := if dr.runAttempted && !ru5.runAttempted then ru5.withAttempted true else ru5
  (ru6,
   { jobRun := some ru6
     scheduled := false
     returned := dr.returned && !ru4.returned
     pending := false
     running := dr.running && !ru0.running
     cancelled := dr.cancelled && !ru3.cancelled
     preempted := false
     failed := dr.failed && !ru2.failed
     succeeded := dr.succeeded && !ru1.succeeded })

/-- `jobDb.reconcileRunDifferences`: reconciles an optional jobdb run with
an optional repository run row. -/
def reconcileRunDifferences (jobRun : Option JobRun) (jobRepoRun : Option DbRun) :
    RunStateTransitions :=
  match jobRun, jobRepoRun with
  | none, none => emptyRST
  | none, some dr =>
    { jobRun := some (schedulerRunFromDatabaseRun dr)
      scheduled := false
      returned := dr.returned
      pending := dr.pendingTimestampSet
      running := dr.running
      cancelled := dr.cancelled
      preempted := false
      failed := dr.failed
      succeeded := dr.succeeded }
  | some ru, none => { emptyRST with jobRun := some ru }
  | some ru, some dr => (mergeRun ru dr).2

/-- `jobDb.schedulerJobFromDatabaseJob`: creates a new scheduler job from a
database job row.  `jobDb.NewJob` receives the queued flag, queued version,
the three cancel flags and the submission time, but not the terminal
success/failure flags, which therefore start out `false`. -/
def schedulerJobFromDatabaseJob (dbJob : DbJob) : Except String Job :=
  match dbJob.schedulingInfoBytes with
  | none => .error ("error unmarshalling scheduling info for job " ++ dbJob.jobId)
  | some si =>
    .ok
      { id := dbJob.jobId
        jobSet := dbJob.jobSet
        queue := dbJob.queue
        requestedPriority := toUInt32Nat dbJob.priority
        schedulingInfo := si
        queued := dbJob.queued
        queuedVersion := dbJob.queuedVersion
        cancelRequested := dbJob.cancelRequested
        cancelByJobsetRequested := dbJob.cancelByJobsetRequested
        cancelled := dbJob.cancelled
        succeeded := false
        failed := false
        submitted := dbJob.submitted
        runs := [] }

/-- The monotone flag and priority updates of the both-present branch of
`jobDb.reconcileJobDifferences`:  `cancel-requested`,
`cancel-by-jobset-requested`, `cancelled`, `succeeded` and `failed`
transition `false → true` only; the requested priority is overwritten from
the repository row. -/
def mergeJobFlags (j0 : Job) (r : DbJob) : Job :=
  let j1 := if r.cancelRequested && !j0.cancelRequested then j0.withCancelRequested true else j0
  let j2 := if r.cancelByJobsetRequested && !j1.cancelByJobsetRequested then j1.withCancelByJobsetRequested true else j1
  let j3 := if r.cancelled && !j2.cancelled then j2.withCancelled true else j2
  let j4 := if r.succeeded && !j3.succeeded then j3.withSucceeded true else j3
  let j5 := if r.failed && !j4.failed then j4.withFailed true else j4
  if toUInt32Nat r.priority ≠ j5.requestedPriority then j5.withRequestedPriority (toUInt32Nat r.priority) else j5

/-- The queued-version gate at the end of the both-present branch of
`jobDb.reconcileJobDifferences`: if the repository queued-version is
strictly greater, the queued flag and the queued-version are taken from the
repository row. -/
def applyQueuedVersion (j : Job) (r : DbJob) : Job :=
  if r.queuedVersion > j.queuedVersion then (j.withQueuedVersion r.queuedVersion).withQueued r.queued else j

/-- The both-present branch of `jobDb.reconcileJobDifferences`: monotone
flag updates, priority overwrite, version-gated scheduling-info replacement
(unmarshalling may fail) and version-gated queued-flag replacement. -/
def reconcileExistingJob (j0 : Job) (r : DbJob) : Except String Job :=
  if r.schedulingInfoVersion > (mergeJobFlags j0 r).schedulingInfo.version then
    match r.schedulingInfoBytes with
    | none => .error ("error unmarshalling scheduling info for job " ++ r.jobId)
    | some si => .ok (applyQueuedVersion ((mergeJobFlags j0 r).withJobSchedulingInfo si) r)
  else
    .ok (applyQueuedVersion (mergeJobFlags j0 r) r)

/-- Replace the first run with the same run id, or append the run if no run
with its id exists; the list form of the jobdb's run-by-id map update. -/
def updateRunList (ru : JobRun) : List JobRun → List JobRun
  | [] => [ru]
  | x :: xs => if x.runId == ru.runId then ru :: xs else x :: updateRunList ru xs

/-- `Job.WithUpdatedRun`. -/
def Job.withUpdatedRun (j : Job) (ru : JobRun) : Job :=
  { j with runs := updateRunList ru j.runs }

@[simp] theorem Job.withUpdatedRun_id (j : Job) (ru : JobRun) : (j.withUpdatedRun ru).id = j.id := rfl
@[simp] theorem Job.withUpdatedRun_jobSet (j : Job) (ru : JobRun) : (j.withUpdatedRun ru).jobSet = j.jobSet := rfl
@[simp] theorem Job.withUpdatedRun_queue (j : Job) (ru : JobRun) : (j.withUpdatedRun ru).queue = j.queue := rfl
@[simp] theorem Job.withUpdatedRun_requestedPriority (j : Job) (ru : JobRun) : (j.withUpdatedRun ru).requestedPriority = j.requestedPriority := rfl
@[simp] theorem Job.withUpdatedRun_schedulingInfo (j : Job) (ru : JobRun) : (j.withUpdatedRun ru).schedulingInfo = j.schedulingInfo := rfl
@[simp] theorem Job.withUpdatedRun_queued (j : Job) (ru : JobRun) : (j.withUpdatedRun ru).queued = j.queued := rfl
@[simp] theorem Job.withUpdatedRun_queuedVersion (j : Job) (ru : JobRun) : (j.withUpdatedRun ru).queuedVersion = j.queuedVersion := rfl
@[simp] theorem Job.withUpdatedRun_cancelRequested (j : Job) (ru : JobRun) : (j.withUpdatedRun ru).cancelRequested = j.cancelRequested := rfl
@[simp] theorem Job.withUpdatedRun_cancelByJobsetRequested (j : Job) (ru : JobRun) : (j.withUpdatedRun ru).cancelByJobsetRequested = j.cancelByJobsetRequested := rfl
@[simp] theorem Job.withUpdatedRun_cancelled (j : Job) (ru : JobRun) : (j.withUpdatedRun ru).cancelled = j.cancelled := rfl
@[simp] theorem Job.withUpdatedRun_succeeded (j : Job) (ru : JobRun) : (j.withUpdatedRun ru).succeeded = j.succeeded := rfl
@[simp] theorem Job.withUpdatedRun_failed (j : Job) (ru : JobRun) : (j.withUpdatedRun ru).failed = j.failed := rfl
@[simp] theorem Job.withUpdatedRun_submitted (j : Job) (ru : JobRun) : (j.withUpdatedRun ru).submitted = j.submitted := rfl
@[simp] theorem Job.withUpdatedRun_runs (j : Job) (ru : JobRun) : (j.withUpdatedRun ru).runs = updateRunList ru j.runs := rfl

/-- `Job.RunById`. -/
def Job.runById (j : Job) (rid : Nat) : Option JobRun :=
  j.runs.find? (fun x => x.runId == rid)

/-- `Job.LatestRun`: the most recently attached run. -/
def Job.latestRun (j : Job) : Option JobRun :=
  j.runs.getLast?

/-- The run-reconciliation loop at the end of
`jobDb.reconcileJobDifferences`: each repository run row is reconciled
against the job's run of the same id, the resulting run transitions are
OR-merged into the job transitions, and the updated run is written back to
the job. -/
def applyRunDeltas : Job → JobStateTransitions → List DbRun → Job × JobStateTransitions
  | j, jst, [] => (j, jst)
  | j, jst, dr :: rest =>
    let rst := reconcileRunDifferences (j.runById dr.runId) (some dr)
    let jst1 := jst.applyRunStateTransitions rst
    let j1 := match rst.jobRun with
              | some ru => j.withUpdatedRun ru
              | none => j
    applyRunDeltas j1 jst1 rest

/-- `jobDb.reconcileJobDifferences`: the four-case merge for one job id.
The `defer` in the Go source stores the final job in the returned
transitions; on an unmarshalling error the error is returned instead. -/
def reconcileJobDifferences (job : Option Job) (jobRepoJob : Option DbJob)
    (jobRepoRuns : List DbRun) : Except String JobStateTransitions :=
  match job, jobRepoJob with
  | none, none => .ok emptyJST
  | none, some r =>
    match schedulerJobFromDatabaseJob r with
    | .error e => .error e
    | .ok j0 =>
      let p := applyRunDeltas j0 { emptyJST with queued := true } jobRepoRuns
      .ok { p.2 with job := some p.1 }
  | some j0, none =>
    let p := applyRunDeltas j0 emptyJST jobRepoRuns
    .ok { p.2 with job := some p.1 }
  | some j0, some r =>
    match reconcileExistingJob j0 r with
    | .error e => .error e
    | .ok jm =>
      let p := applyRunDeltas jm emptyJST jobRepoRuns
      .ok { p.2 with job := some p.1 }

/-- The jobDb contents visible to one transaction: job snapshots looked up
by job id (`Txn.GetById`). -/
abbrev JobDbMap := List Job

/-- `Txn.GetById`. -/
def dbLookup (db : JobDbMap) (id : String) : Option Job :=
  db.find? (fun j => j.id == id)

/-- One job of `Txn.Upsert`: replace the snapshot with the same id, or add
the job if no snapshot with its id exists. -/
def dbUpsert : JobDbMap → Job → JobDbMap
  | [], j => [j]
  | x :: xs, j => if x.id == j.id then j :: xs else x :: dbUpsert xs j

/-- The job ids observed in a delta batch: ids of updated runs and ids of
updated jobs (the key set of `jobRepoJobsById` in
`JobDb.ReconcileDifferences`). -/
def batchJobIds (jobs : List DbJob) (runs : List DbRun) : List String :=
  (runs.map (fun r => r.jobId) ++ jobs.map (fun r => r.jobId)).dedup

/-- The repository job row for an id: the last row with that id wins, as
with the Go map assignment in `JobDb.ReconcileDifferences`. -/
def repoJobFor (jobs : List DbJob) (id : String) : Option DbJob :=
  jobs.reverse.find? (fun r => r.jobId == id)

/-- The repository run rows grouped under a job id, in feed order
(`armadaslices.MapAndGroupByFuncs`). -/
def runsFor (runs : List DbRun) (id : String) : List DbRun :=
  runs.filter (fun r => r.jobId == id)

/-- `JobDb.ReconcileDifferences`: reconciles every job id observed in the
delta batch against the transaction's snapshot and returns the per-job
state transitions.  All lookups read the transaction state from before the
call; nothing is upserted here. -/
def ReconcileDifferences (db : JobDbMap) (jobs : List DbJob) (runs : List DbRun) :
    Except String (List JobStateTransitions) :=
  (batchJobIds jobs runs).mapM
    (fun id => reconcileJobDifferences (dbLookup db id) (repoJobFor jobs id) (runsFor runs id))

/-- Upsert the reconciled snapshots into the transaction, as the cycle's
sync step does with the transitions returned by `ReconcileDifferences`. -/
def upsertTransitions (jsts : List JobStateTransitions) (db : JobDbMap) : JobDbMap :=
  jsts.foldl
    (fun acc jst => match jst.job with
      | some j => dbUpsert acc j
      | none => acc)
    db

/-- Applying one delta batch to the jobDb: reconcile all observed job ids,
then upsert the resulting snapshots; an error from reconciliation aborts
the whole application. -/
def applyDeltaBatch (db : JobDbMap) (jobs : List DbJob) (runs : List DbRun) :
    Except String JobDbMap :=
  match ReconcileDifferences db jobs runs with
  | .error e => .error e
  | .ok jsts => .ok (upsertTransitions jsts db)

/-!
## The scheduler cycle

The cycle driver (`Scheduler.cycle`) is not part of the sources at hand;
only its tests are.  The definitions below therefore model it from the
spec: a leader-gated pass that syncs repository deltas, evaluates queue
TTLs, lease returns and cancellations, schedules new leases, and publishes
all produced events atomically — committing the transaction only on a
successful publish under a still-valid leader token.
-/

/-- Modelled from the spec: a job is terminal when any of succeeded,
failed, cancelled is set (`Job.InTerminalState` is not in the sources at
hand). -/
def Job.inTerminalState (j : Job) : Bool :=
  j.succeeded || j.failed || j.cancelled

/-- Modelled from the spec: the lifecycle events the cycle publishes (the
kinds the claims mention), each carrying the id of the job it concerns. -/
inductive SchedulerEvent where
  | jobRunLeased (jobId : String)
  | jobRequeued (jobId : String)
  | cancelJob (jobId : String)
  | cancelledJob (jobId : String)
  | jobErrors (jobId : String)
deriving DecidableEq, Repr

/-- Modelled from the spec: per-cycle inputs — the repository deltas, the
jobs the scheduling algorithm selects, the verdict of the submit checker,
failure injections for the schedule and publish steps, the leader-token
validity re-checked immediately before publishing, and the clock. -/
structure CycleInput where
  jobUpdates : List DbJob
  runUpdates : List DbRun
  jobsToSchedule : List String
  leaseExecutor : String
  leaseNode : String
  submitCheckerOk : Bool
  scheduleFails : Bool
  publishFails : Bool
  tokenValidAtPublish : Bool
  now : Int
deriving DecidableEq, Repr

/-- Modelled from the spec: the scheduler state the cycle can change — the
committed jobDb snapshot. -/
structure SchedulerState where
  jobDb : JobDbMap
deriving DecidableEq, Repr

/-- Modelled from the spec, queue-TTL evaluation for one job: a queued,
not-yet-cancel-requested, non-terminal job whose time since submission
exceeds its (positive) queue TTL has cancel-requested set and a `CancelJob`
event emitted. -/
def queueTtlJob (now : Int) (j : Job) : Job × List SchedulerEvent :=
  if j.queued = true ∧ j.cancelRequested = false ∧ j.inTerminalState = false ∧
     0 < j.schedulingInfo.queueTtlSeconds ∧
     (j.schedulingInfo.queueTtlSeconds : Int) < now - j.submitted then
    (j.withCancelRequested true, [.cancelJob j.id])
  else (j, [])

/-- Modelled from the spec, lease-return evaluation for one job: if the
latest run of a leased (non-queued, non-terminal) job has returned, the job
is requeued — with a node anti-affinity for the node that ran it, a bumped
scheduling-info version and a bumped queued-version when the run was
attempted — unless the attempt count has reached the maximum, the job is
fail-fast, or the submit checker rejects the augmented job, in which case
the job is failed and a `JobErrors` event is emitted. -/
def leaseReturnedJob (maxAttempts : Nat) (checkerOk : Bool) (j : Job) :
    Job × List SchedulerEvent :=
  match j.latestRun with
  | none => (j, [])
  | some ru =>
    if j.queued = false ∧ j.inTerminalState = false ∧ ru.returned = true then
      if maxAttempts ≤ (j.runs.filter (fun x => x.runAttempted)).length ∨
         j.schedulingInfo.failFast = true then
        ((j.withFailed true).withQueued false, [.jobErrors j.id])
      else
        let si := if ru.runAttempted then
            { j.schedulingInfo with
              version := j.schedulingInfo.version + 1
              antiAffinityNodes := j.schedulingInfo.antiAffinityNodes ++ [ru.nodeName] }
          else j.schedulingInfo
        if checkerOk then
          (((j.withJobSchedulingInfo si).withQueued true).withQueuedVersion (j.queuedVersion + 1),
           [.jobRequeued j.id])
        else ((j.withFailed true).withQueued false, [.jobErrors j.id])
    else (j, [])

/-- Modelled from the spec, cancellation for one job: a non-terminal job
with cancel-requested set is marked cancelled (terminal, removed from the
queue) and a `CancelledJob` event is emitted in the same cycle. -/
def cancelJobPass (j : Job) : Job × List SchedulerEvent :=
  if j.cancelRequested = true ∧ j.inTerminalState = false then
    ((j.withCancelled true).withQueued false, [.cancelledJob j.id])
  else (j, [])

/-- Modelled from the spec: the run attached to a job leased by the
scheduling pass. -/
def newLeaseRun (j : Job) (executor node : String) : JobRun :=
  { runId := j.runs.length
    jobId := j.id
    created := 0
    executor := executor
    nodeId := nodeIdFromExecutorAndNodeName executor node
    nodeName := node
    scheduledAtPriority := none
    running := false
    succeeded := false
    failed := false
    cancelled := false
    returned := false
    runAttempted := false }

/-- Modelled from the spec: attach a freshly created run to a job. -/
def Job.withAttachedRun (j : Job) (ru : JobRun) : Job :=
  { j with runs := j.runs ++ [ru] }

@[simp] theorem Job.withAttachedRun_id (j : Job) (ru : JobRun) : (j.withAttachedRun ru).id = j.id := rfl
@[simp] theorem Job.withAttachedRun_jobSet (j : Job) (ru : JobRun) : (j.withAttachedRun ru).jobSet = j.jobSet := rfl
@[simp] theorem Job.withAttachedRun_queue (j : Job) (ru : JobRun) : (j.withAttachedRun ru).queue = j.queue := rfl
@[simp] theorem Job.withAttachedRun_requestedPriority (j : Job) (ru : JobRun) : (j.withAttachedRun ru).requestedPriority = j.requestedPriority := rfl
@[simp] theorem Job.withAttachedRun_schedulingInfo (j : Job) (ru : JobRun) : (j.withAttachedRun ru).schedulingInfo = j.schedulingInfo := rfl
@[simp] theorem Job.withAttachedRun_queued (j : Job) (ru : JobRun) : (j.withAttachedRun ru).queued = j.queued := rfl
@[simp] theorem Job.withAttachedRun_queuedVersion (j : Job) (ru : JobRun) : (j.withAttachedRun ru).queuedVersion = j.queuedVersion := rfl
@[simp] theorem Job.withAttachedRun_cancelRequested (j : Job) (ru : JobRun) : (j.withAttachedRun ru).cancelRequested = j.cancelRequested := rfl
@[simp] theorem Job.withAttachedRun_cancelByJobsetRequested (j : Job) (ru : JobRun) : (j.withAttachedRun ru).cancelByJobsetRequested = j.cancelByJobsetRequested := rfl
@[simp] theorem Job.withAttachedRun_cancelled (j : Job) (ru : JobRun) : (j.withAttachedRun ru).cancelled = j.cancelled := rfl
@[simp] theorem Job.withAttachedRun_succeeded (j : Job) (ru : JobRun) : (j.withAttachedRun ru).succeeded = j.succeeded := rfl
@[simp] theorem Job.withAttachedRun_failed (j : Job) (ru : JobRun) : (j.withAttachedRun ru).failed = j.failed := rfl
@[simp] theorem Job.withAttachedRun_submitted (j : Job) (ru : JobRun) : (j.withAttachedRun ru).submitted = j.submitted := rfl
@[simp] theorem Job.withAttachedRun_runs (j : Job) (ru : JobRun) : (j.withAttachedRun ru).runs = j.runs ++ [ru] := rfl

/-- Modelled from the spec, the scheduling pass for one job: a queued,
non-terminal job selected by the scheduling algorithm has its
queued-version bumped, leaves the queue, gets a new run attached and a
`JobRunLeased` event emitted. -/
def scheduleJob (toSchedule : List String) (executor node : String) (j : Job) :
    Job × List SchedulerEvent :=
  if j.id ∈ toSchedule ∧ j.queued = true ∧ j.inTerminalState = false then
    (((j.withAttachedRun (newLeaseRun j executor node)).withQueued false).withQueuedVersion
       (j.queuedVersion + 1),
     [.jobRunLeased j.id])
  else (j, [])

/-- Apply a per-job pass to every snapshot of the transaction, collecting
the emitted events in jobDb order. -/
def mapPass (f : Job → Job × List SchedulerEvent) : JobDbMap → JobDbMap × List SchedulerEvent
  | [] => ([], [])
  | j :: rest =>
    let p := f j
    let q := mapPass f rest
    (p.1 :: q.1, p.2 ++ q.2)

/-- Modelled from the spec, one scheduler cycle: sync repository deltas via
the reconciler, evaluate queue TTLs, lease returns and cancellations, run
the scheduling pass, then publish all produced events; the staged
transaction commits only when every step succeeded and the leader token is
still valid immediately before publishing — otherwise the transaction is
rolled back, the jobDb is unchanged and nothing is published. -/
def cycle (maxAttempts : Nat) (s : SchedulerState) (i : CycleInput) :
    SchedulerState × List SchedulerEvent :=
  match applyDeltaBatch s.jobDb i.jobUpdates i.runUpdates with
  | .error _ => (s, [])
  | .ok db1 =>
    let p2 := mapPass (queueTtlJob i.now) db1
    let p3 := mapPass (leaseReturnedJob maxAttempts i.submitCheckerOk) p2.1
    let p4 := mapPass cancelJobPass p3.1
    if i.scheduleFails = true then (s, [])
    else
      let p5 := mapPass (scheduleJob i.jobsToSchedule i.leaseExecutor i.leaseNode) p4.1
      if i.publishFails = true ∨ i.tokenValidAtPublish = false then (s, [])
      else ({ jobDb := p5.1 }, p2.2 ++ p3.2 ++ p4.2 ++ p5.2)

/-! ### Field characterisation of `mergeRun` -/

@[simp] theorem mergeRun_fst_runId (ru : JobRun) (dr : DbRun) :
    (mergeRun ru dr).1.runId = ru.runId := by
  simp [mergeRun, apply_ite JobRun.runId]

@[simp] theorem mergeRun_fst_jobId (ru : JobRun) (dr : DbRun) :
    (mergeRun ru dr).1.jobId = ru.jobId := by
  simp [mergeRun, apply_ite JobRun.jobId]

@[simp] theorem mergeRun_fst_created (ru : JobRun) (dr : DbRun) :
    (mergeRun ru dr).1.created = ru.created := by
  simp [mergeRun, apply_ite JobRun.created]

@[simp] theorem mergeRun_fst_executor (ru : JobRun) (dr : DbRun) :
    (mergeRun ru dr).1.executor = ru.executor := by
  simp [mergeRun, apply_ite JobRun.executor]

@[simp] theorem mergeRun_fst_nodeId (ru : JobRun) (dr : DbRun) :
    (mergeRun ru dr).1.nodeId = ru.nodeId := by
  simp [mergeRun, apply_ite JobRun.nodeId]

@[simp] theorem mergeRun_fst_nodeName (ru : JobRun) (dr : DbRun) :
    (mergeRun ru dr).1.nodeName = ru.nodeName := by
  simp [mergeRun, apply_ite JobRun.nodeName]

@[simp] theorem mergeRun_fst_scheduledAtPriority (ru : JobRun) (dr : DbRun) :
    (mergeRun ru dr).1.scheduledAtPriority = ru.scheduledAtPriority := by
  simp [mergeRun, apply_ite JobRun.scheduledAtPriority]

@[simp] theorem mergeRun_fst_running (ru : JobRun) (dr : DbRun) :
    (mergeRun ru dr).1.running = (ru.running || dr.running) := by
  simp only [mergeRun, apply_ite JobRun.running, JobRun.withRunning_running, JobRun.withSucceeded_running, JobRun.withFailed_running, JobRun.withCancelled_running, JobRun.withReturned_running, JobRun.withAttempted_running, ite_self]
  cases h1 : dr.running <;> cases h2 : ru.running <;> simp

@[simp] theorem mergeRun_fst_succeeded (ru : JobRun) (dr : DbRun) :
    (mergeRun ru dr).1.succeeded = (ru.succeeded || dr.succeeded) := by
  simp only [mergeRun, apply_ite JobRun.succeeded, JobRun.withRunning_succeeded, JobRun.withSucceeded_succeeded, JobRun.withFailed_succeeded, JobRun.withCancelled_succeeded, JobRun.withReturned_succeeded, JobRun.withAttempted_succeeded, ite_self]
  cases h1 : dr.succeeded <;> cases h2 : ru.succeeded <;> simp

@[simp] theorem mergeRun_fst_failed (ru : JobRun) (dr : DbRun) :
    (mergeRun ru dr).1.failed = (ru.failed || dr.failed) := by
  simp only [mergeRun, apply_ite JobRun.failed, JobRun.withRunning_failed, JobRun.withSucceeded_failed, JobRun.withFailed_failed, JobRun.withCancelled_failed, JobRun.withReturned_failed, JobRun.withAttempted_failed, ite_self]
  cases h1 : dr.failed <;> cases h2 : ru.failed <;> simp

@[simp] theorem mergeRun_fst_cancelled (ru : JobRun) (dr : DbRun) :
    (mergeRun ru dr).1.cancelled = (ru.cancelled || dr.cancelled) := by
  simp only [mergeRun, apply_ite JobRun.cancelled, JobRun.withRunning_cancelled, JobRun.withSucceeded_cancelled, JobRun.withFailed_cancelled, JobRun.withCancelled_cancelled, JobRun.withReturned_cancelled, JobRun.withAttempted_cancelled, ite_self]
  cases h1 : dr.cancelled <;> cases h2 : ru.cancelled <;> simp

@[simp] theorem mergeRun_fst_returned (ru : JobRun) (dr : DbRun) :
    (mergeRun ru dr).1.returned = (ru.returned || dr.returned) := by
  simp only [mergeRun, apply_ite JobRun.returned, JobRun.withRunning_returned, JobRun.withSucceeded_returned, JobRun.withFailed_returned, JobRun.withCancelled_returned, JobRun.withReturned_returned, JobRun.withAttempted_returned, ite_self]
  cases h1 : dr.returned <;> cases h2 : ru.returned <;> simp

@[simp] theorem mergeRun_fst_runAttempted (ru : JobRun) (dr : DbRun) :
    (mergeRun ru dr).1.runAttempted = (ru.runAttempted || dr.runAttempted) := by
  simp only [mergeRun, apply_ite JobRun.runAttempted, JobRun.withRunning_runAttempted, JobRun.withSucceeded_runAttempted, JobRun.withFailed_runAttempted, JobRun.withCancelled_runAttempted, JobRun.withReturned_runAttempted, JobRun.withAttempted_runAttempted, ite_self]
  cases h1 : dr.runAttempted <;> cases h2 : ru.runAttempted <;> simp

theorem mergeRun_snd_jobRun (ru : JobRun) (dr : DbRun) :
    (mergeRun ru dr).2.jobRun = some (mergeRun ru dr).1 := rfl

/-! ### Field characterisation of `mergeJobFlags` -/

@[simp] theorem mergeJobFlags_id (j : Job) (r : DbJob) :
    (mergeJobFlags j r).id = j.id := by
  simp [mergeJobFlags, apply_ite Job.id]

@[simp] theorem mergeJobFlags_jobSet (j : Job) (r : DbJob) :
    (mergeJobFlags j r).jobSet = j.jobSet := by
  simp [mergeJobFlags, apply_ite Job.jobSet]

@[simp] theorem mergeJobFlags_queue (j : Job) (r : DbJob) :
    (mergeJobFlags j r).queue = j.queue := by
  simp [mergeJobFlags, apply_ite Job.queue]

@[simp] theorem mergeJobFlags_schedulingInfo (j : Job) (r : DbJob) :
    (mergeJobFlags j r).schedulingInfo = j.schedulingInfo := by
  simp [mergeJobFlags, apply_ite Job.schedulingInfo]

@[simp] theorem mergeJobFlags_queued (j : Job) (r : DbJob) :
    (mergeJobFlags j r).queued = j.queued := by
  simp [mergeJobFlags, apply_ite Job.queued]

@[simp] theorem mergeJobFlags_queuedVersion (j : Job) (r : DbJob) :
    (mergeJobFlags j r).queuedVersion = j.queuedVersion := by
  simp [mergeJobFlags, apply_ite Job.queuedVersion]

@[simp] theorem mergeJobFlags_submitted (j : Job) (r : DbJob) :
    (mergeJobFlags j r).submitted = j.submitted := by
  simp [mergeJobFlags, apply_ite Job.submitted]

@[simp] theorem mergeJobFlags_runs (j : Job) (r : DbJob) :
    (mergeJobFlags j r).runs = j.runs := by
  simp [mergeJobFlags, apply_ite Job.runs]

@[simp] theorem mergeJobFlags_cancelRequested (j : Job) (r : DbJob) :
    (mergeJobFlags j r).cancelRequested = (j.cancelRequested || r.cancelRequested) := by
  simp only [mergeJobFlags, apply_ite Job.cancelRequested, Job.withCancelRequested_cancelRequested, Job.withCancelByJobsetRequested_cancelRequested, Job.withCancelled_cancelRequested, Job.withSucceeded_cancelRequested, Job.withFailed_cancelRequested, Job.withRequestedPriority_cancelRequested, ite_self]
  cases h1 : r.cancelRequested <;> cases h2 : j.cancelRequested <;> simp

@[simp] theorem mergeJobFlags_cancelByJobsetRequested (j : Job) (r : DbJob) :
    (mergeJobFlags j r).cancelByJobsetRequested = (j.cancelByJobsetRequested || r.cancelByJobsetRequested) := by
  simp only [mergeJobFlags, apply_ite Job.cancelByJobsetRequested, Job.withCancelRequested_cancelByJobsetRequested, Job.withCancelByJobsetRequested_cancelByJobsetRequested, Job.withCancelled_cancelByJobsetRequested, Job.withSucceeded_cancelByJobsetRequested, Job.withFailed_cancelByJobsetRequested, Job.withRequestedPriority_cancelByJobsetRequested, ite_self]
  cases h1 : r.cancelByJobsetRequested <;> cases h2 : j.cancelByJobsetRequested <;> simp

@[simp] theorem mergeJobFlags_cancelled (j : Job) (r : DbJob) :
    (mergeJobFlags j r).cancelled = (j.cancelled || r.cancelled) := by
  simp only [mergeJobFlags, apply_ite Job.cancelled, Job.withCancelRequested_cancelled, Job.withCancelByJobsetRequested_cancelled, Job.withCancelled_cancelled_j, Job.withSucceeded_cancelled_j, Job.withFailed_cancelled_j, Job.withRequestedPriority_cancelled, ite_self]
  cases h1 : r.cancelled <;> cases h2 : j.cancelled <;> simp

@[simp] theorem mergeJobFlags_succeeded (j : Job) (r : DbJob) :
    (mergeJobFlags j r).succeeded = (j.succeeded || r.succeeded) := by
  simp only [mergeJobFlags, apply_ite Job.succeeded, Job.withCancelRequested_succeeded, Job.withCancelByJobsetRequested_succeeded, Job.withCancelled_succeeded_j, Job.withSucceeded_succeeded_j, Job.withFailed_succeeded_j, Job.withRequestedPriority_succeeded, ite_self]
  cases h1 : r.succeeded <;> cases h2 : j.succeeded <;> simp

@[simp] theorem mergeJobFlags_failed (j : Job) (r : DbJob) :
    (mergeJobFlags j r).failed = (j.failed || r.failed) := by
  simp only [mergeJobFlags, apply_ite Job.failed, Job.withCancelRequested_failed, Job.withCancelByJobsetRequested_failed, Job.withCancelled_failed_j, Job.withSucceeded_failed_j, Job.withFailed_failed_j, Job.withRequestedPriority_failed, ite_self]
  cases h1 : r.failed <;> cases h2 : j.failed <;> simp

@[simp] theorem mergeJobFlags_requestedPriority (j : Job) (r : DbJob) :
    (mergeJobFlags j r).requestedPriority = toUInt32Nat r.priority := by
  simp only [mergeJobFlags, apply_ite Job.requestedPriority, Job.withCancelRequested_requestedPriority, Job.withCancelByJobsetRequested_requestedPriority, Job.withCancelled_requestedPriority, Job.withSucceeded_requestedPriority, Job.withFailed_requestedPriority, Job.withRequestedPriority_requestedPriority, ite_self]
  split
  case isTrue h => rfl
  case isFalse h => omega


/-! ### Extensionality and flag-order predicates -/

theorem JobRun.ext2 (a b : JobRun) (h1 : a.runId = b.runId) (h2 : a.jobId = b.jobId)
    (h3 : a.created = b.created) (h4 : a.executor = b.executor) (h5 : a.nodeId = b.nodeId)
    (h6 : a.nodeName = b.nodeName) (h7 : a.scheduledAtPriority = b.scheduledAtPriority)
    (h8 : a.running = b.running) (h9 : a.succeeded = b.succeeded) (h10 : a.failed = b.failed)
    (h11 : a.cancelled = b.cancelled) (h12 : a.returned = b.returned)
    (h13 : a.runAttempted = b.runAttempted) : a = b := by
  cases a; cases b; simp_all

theorem Job.ext_j (a b : Job) (h1 : a.id = b.id) (h2 : a.jobSet = b.jobSet)
    (h3 : a.queue = b.queue) (h4 : a.requestedPriority = b.requestedPriority)
    (h5 : a.schedulingInfo = b.schedulingInfo) (h6 : a.queued = b.queued)
    (h7 : a.queuedVersion = b.queuedVersion) (h8 : a.cancelRequested = b.cancelRequested)
    (h9 : a.cancelByJobsetRequested = b.cancelByJobsetRequested)
    (h10 : a.cancelled = b.cancelled) (h11 : a.succeeded = b.succeeded)
    (h12 : a.failed = b.failed) (h13 : a.submitted = b.submitted)
    (h14 : a.runs = b.runs) : a = b := by
  cases a; cases b; simp_all

/-- Monotone run flags of claim C1: succeeded, failed, cancelled, run-attempted. -/
def runFlagsLe (a b : JobRun) : Prop :=
  (a.succeeded = true → b.succeeded = true) ∧ (a.failed = true → b.failed = true) ∧
  (a.cancelled = true → b.cancelled = true) ∧ (a.runAttempted = true → b.runAttempted = true)

/-- Monotone job flags of claim C1: succeeded, failed, cancelled, cancel-requested. -/
def jobFlagsLe (a b : Job) : Prop :=
  (a.succeeded = true → b.succeeded = true) ∧ (a.failed = true → b.failed = true) ∧
  (a.cancelled = true → b.cancelled = true) ∧ (a.cancelRequested = true → b.cancelRequested = true)

/-- Every state flag of the repository run row is already set on the run. -/
def dbRunFlagsLe (dr : DbRun) (ru : JobRun) : Prop :=
  (dr.running = true → ru.running = true) ∧ (dr.succeeded = true → ru.succeeded = true) ∧
  (dr.failed = true → ru.failed = true) ∧ (dr.cancelled = true → ru.cancelled = true) ∧
  (dr.returned = true → ru.returned = true) ∧ (dr.runAttempted = true → ru.runAttempted = true)

/-- The job has a run with the row's id whose flags subsume the row's flags. -/
def dbRunCovered (j : Job) (dr : DbRun) : Prop :=
  ∃ ru, j.runById dr.runId = some ru ∧ dbRunFlagsLe dr ru

/-- The job snapshot already reflects everything the repository job row
could change: flags subsumed, priority equal, decodable scheduling info
whenever the version gate is open, queued-version gate closed. -/
def dbJobCovered (j : Job) (r : DbJob) : Prop :=
  (r.cancelRequested = true → j.cancelRequested = true) ∧
  (r.cancelByJobsetRequested = true → j.cancelByJobsetRequested = true) ∧
  (r.cancelled = true → j.cancelled = true) ∧
  (r.succeeded = true → j.succeeded = true) ∧
  (r.failed = true → j.failed = true) ∧
  j.requestedPriority = toUInt32Nat r.priority ∧
  (r.schedulingInfoVersion > j.schedulingInfo.version → r.schedulingInfoBytes = some j.schedulingInfo) ∧
  ¬ r.queuedVersion > j.queuedVersion

/-! ### `mergeRun` as a flag join -/

theorem mergeRun_mono (ru : JobRun) (dr : DbRun) : runFlagsLe ru (mergeRun ru dr).1 := by
  refine ⟨?_, ?_, ?_, ?_⟩ <;> simp_all

theorem mergeRun_covers (ru : JobRun) (dr : DbRun) : dbRunFlagsLe dr (mergeRun ru dr).1 := by
  refine ⟨?_, ?_, ?_, ?_, ?_, ?_⟩ <;> simp_all

theorem mergeRun_eq_self (ru : JobRun) (dr : DbRun) (h : dbRunFlagsLe dr ru) :
    (mergeRun ru dr).1 = ru := by
  obtain ⟨h1, h2, h3, h4, h5, h6⟩ := h
  apply JobRun.ext2 <;> simp
  · cases hx : dr.running <;> simp_all
  · cases hx : dr.succeeded <;> simp_all
  · cases hx : dr.failed <;> simp_all
  · cases hx : dr.cancelled <;> simp_all
  · cases hx : dr.returned <;> simp_all
  · cases hx : dr.runAttempted <;> simp_all


/-! ### Field characterisation of `applyQueuedVersion` and `reconcileExistingJob` -/

@[simp] theorem applyQueuedVersion_id (j : Job) (r : DbJob) :
    (applyQueuedVersion j r).id = j.id := by
  simp [applyQueuedVersion, apply_ite Job.id]

@[simp] theorem applyQueuedVersion_jobSet (j : Job) (r : DbJob) :
    (applyQueuedVersion j r).jobSet = j.jobSet := by
  simp [applyQueuedVersion, apply_ite Job.jobSet]

@[simp] theorem applyQueuedVersion_queue (j : Job) (r : DbJob) :
    (applyQueuedVersion j r).queue = j.queue := by
  simp [applyQueuedVersion, apply_ite Job.queue]

@[simp] theorem applyQueuedVersion_requestedPriority (j : Job) (r : DbJob) :
    (applyQueuedVersion j r).requestedPriority = j.requestedPriority := by
  simp [applyQueuedVersion, apply_ite Job.requestedPriority]

@[simp] theorem applyQueuedVersion_schedulingInfo (j : Job) (r : DbJob) :
    (applyQueuedVersion j r).schedulingInfo = j.schedulingInfo := by
  simp [applyQueuedVersion, apply_ite Job.schedulingInfo]

@[simp] theorem applyQueuedVersion_cancelRequested (j : Job) (r : DbJob) :
    (applyQueuedVersion j r).cancelRequested = j.cancelRequested := by
  simp [applyQueuedVersion, apply_ite Job.cancelRequested]

@[simp] theorem applyQueuedVersion_cancelByJobsetRequested (j : Job) (r : DbJob) :
    (applyQueuedVersion j r).cancelByJobsetRequested = j.cancelByJobsetRequested := by
  simp [applyQueuedVersion, apply_ite Job.cancelByJobsetRequested]

@[simp] theorem applyQueuedVersion_cancelled (j : Job) (r : DbJob) :
    (applyQueuedVersion j r).cancelled = j.cancelled := by
  simp [applyQueuedVersion, apply_ite Job.cancelled]

@[simp] theorem applyQueuedVersion_succeeded (j : Job) (r : DbJob) :
    (applyQueuedVersion j r).succeeded = j.succeeded := by
  simp [applyQueuedVersion, apply_ite Job.succeeded]

@[simp] theorem applyQueuedVersion_failed (j : Job) (r : DbJob) :
    (applyQueuedVersion j r).failed = j.failed := by
  simp [applyQueuedVersion, apply_ite Job.failed]

@[simp] theorem applyQueuedVersion_submitted (j : Job) (r : DbJob) :
    (applyQueuedVersion j r).submitted = j.submitted := by
  simp [applyQueuedVersion, apply_ite Job.submitted]

@[simp] theorem applyQueuedVersion_runs (j : Job) (r : DbJob) :
    (applyQueuedVersion j r).runs = j.runs := by
  simp [applyQueuedVersion, apply_ite Job.runs]

@[simp] theorem applyQueuedVersion_queued (j : Job) (r : DbJob) :
    (applyQueuedVersion j r).queued = if r.queuedVersion > j.queuedVersion then r.queued else j.queued := by
  simp [applyQueuedVersion, apply_ite Job.queued]

@[simp] theorem applyQueuedVersion_queuedVersion (j : Job) (r : DbJob) :
    (applyQueuedVersion j r).queuedVersion =
      if r.queuedVersion > j.queuedVersion then r.queuedVersion else j.queuedVersion := by
  simp [applyQueuedVersion, apply_ite Job.queuedVersion]

theorem reconcileExistingJob_ok (j : Job) (r : DbJob) (j' : Job)
    (h : reconcileExistingJob j r = .ok j') :
    j'.id = j.id ∧ j'.jobSet = j.jobSet ∧ j'.queue = j.queue ∧ j'.submitted = j.submitted ∧
    j'.runs = j.runs ∧
    j'.cancelRequested = (j.cancelRequested || r.cancelRequested) ∧
    j'.cancelByJobsetRequested = (j.cancelByJobsetRequested || r.cancelByJobsetRequested) ∧
    j'.cancelled = (j.cancelled || r.cancelled) ∧
    j'.succeeded = (j.succeeded || r.succeeded) ∧
    j'.failed = (j.failed || r.failed) ∧
    j'.requestedPriority = toUInt32Nat r.priority ∧
    (if r.schedulingInfoVersion > j.schedulingInfo.version
     then r.schedulingInfoBytes = some j'.schedulingInfo
     else j'.schedulingInfo = j.schedulingInfo) ∧
    j'.queued = (if r.queuedVersion > j.queuedVersion then r.queued else j.queued) ∧
    j'.queuedVersion = (if r.queuedVersion > j.queuedVersion then r.queuedVersion else j.queuedVersion) := by
  unfold reconcileExistingJob at h
  by_cases hv : r.schedulingInfoVersion > (mergeJobFlags j r).schedulingInfo.version
  · rw [if_pos hv] at h
    simp only [mergeJobFlags_schedulingInfo] at hv
    cases hb : r.schedulingInfoBytes with
    | none => rw [hb] at h; exact absurd h (by simp)
    | some si =>
      rw [hb] at h
      injection h with h
      subst h
      simp [hv, hb]
  · rw [if_neg hv] at h
    simp only [mergeJobFlags_schedulingInfo] at hv
    injection h with h
    subst h
    simp [hv]


/-! ### Covering lemmas for `reconcileExistingJob` and new jobs -/

theorem reconcileExistingJob_covers (j : Job) (r : DbJob) (j' : Job)
    (h : reconcileExistingJob j r = .ok j') : dbJobCovered j' r := by
  obtain ⟨-, -, -, -, -, hcr, hcjr, hc, hs, hf, hp, hsi, hq, hqv⟩ :=
    reconcileExistingJob_ok j r j' h
  refine ⟨?_, ?_, ?_, ?_, ?_, hp, ?_, ?_⟩
  · intro hx; simp [hcr, hx]
  · intro hx; simp [hcjr, hx]
  · intro hx; simp [hc, hx]
  · intro hx; simp [hs, hx]
  · intro hx; simp [hf, hx]
  · intro hx
    by_cases hv : r.schedulingInfoVersion > j.schedulingInfo.version
    · rw [if_pos hv] at hsi; exact hsi
    · rw [if_neg hv] at hsi; rw [hsi] at hx; exact absurd hx hv
  · by_cases hv : r.queuedVersion > j.queuedVersion
    · rw [if_pos hv] at hqv; omega
    · rw [if_neg hv] at hqv; omega

theorem reconcileExistingJob_eq_self (j : Job) (r : DbJob) (hcov : dbJobCovered j r) :
    reconcileExistingJob j r = .ok j := by
  obtain ⟨h1, h2, h3, h4, h5, hp, hsi, hqv⟩ := hcov
  have hm : mergeJobFlags j r = j := by
    apply Job.ext_j <;> simp [hp]
    · cases hx : r.cancelRequested <;> simp_all
    · cases hx : r.cancelByJobsetRequested <;> simp_all
    · cases hx : r.cancelled <;> simp_all
    · cases hx : r.succeeded <;> simp_all
    · cases hx : r.failed <;> simp_all
  have haq : applyQueuedVersion j r = j := by
    unfold applyQueuedVersion
    rw [if_neg hqv]
  unfold reconcileExistingJob
  rw [hm]
  by_cases hv : r.schedulingInfoVersion > j.schedulingInfo.version
  · rw [if_pos hv, hsi hv]
    show Except.ok (applyQueuedVersion (j.withJobSchedulingInfo j.schedulingInfo) r) = _
    have : j.withJobSchedulingInfo j.schedulingInfo = j := rfl
    rw [this, haq]
  · rw [if_neg hv, haq]

theorem schedulerJobFromDatabaseJob_ok (r : DbJob) (j0 : Job)
    (h : schedulerJobFromDatabaseJob r = .ok j0) :
    r.schedulingInfoBytes = some j0.schedulingInfo ∧ j0.id = r.jobId ∧
    j0.jobSet = r.jobSet ∧ j0.queue = r.queue ∧
    j0.requestedPriority = toUInt32Nat r.priority ∧ j0.queued = r.queued ∧
    j0.queuedVersion = r.queuedVersion ∧ j0.cancelRequested = r.cancelRequested ∧
    j0.cancelByJobsetRequested = r.cancelByJobsetRequested ∧ j0.cancelled = r.cancelled ∧
    j0.succeeded = false ∧ j0.failed = false ∧ j0.submitted = r.submitted ∧ j0.runs = [] := by
  unfold schedulerJobFromDatabaseJob at h
  cases hb : r.schedulingInfoBytes with
  | none => rw [hb] at h; exact absurd h (by simp)
  | some si =>
    rw [hb] at h
    injection h with h
    subst h
    simp [hb]

theorem schedulerJobFromDatabaseJob_covers (r : DbJob) (j0 : Job)
    (h : schedulerJobFromDatabaseJob r = .ok j0)
    (hs : r.succeeded = false) (hf : r.failed = false) : dbJobCovered j0 r := by
  obtain ⟨hb, -, -, -, hp, -, hqv, hcr, hcjr, hc, hs0, hf0, -, -⟩ :=
    schedulerJobFromDatabaseJob_ok r j0 h
  refine ⟨?_, ?_, ?_, ?_, ?_, hp, ?_, ?_⟩
  · intro hx; rw [hcr, hx]
  · intro hx; rw [hcjr, hx]
  · intro hx; rw [hc, hx]
  · intro hx; rw [hx] at hs; exact absurd hs (by simp)
  · intro hx; rw [hx] at hf; exact absurd hf (by simp)
  · intro hx; exact hb
  · omega


/-! ### `updateRunList` and `runById` -/

theorem find?_runId_cons (l : List JobRun) (a : JobRun) (rid : Nat) :
    (a :: l).find? (fun z => z.runId == rid) =
      if a.runId = rid then some a else l.find? (fun z => z.runId == rid) := by
  rw [List.find?_cons]
  by_cases h : a.runId = rid
  · simp [h]
  · have hb : (a.runId == rid) = false := by simpa using h
    simp [hb, h]

theorem find?_runId_props {l : List JobRun} {rid : Nat} {ru0 : JobRun}
    (h : l.find? (fun x => x.runId == rid) = some ru0) : ru0 ∈ l ∧ ru0.runId = rid := by
  refine ⟨List.mem_of_find?_eq_some h, ?_⟩
  have := List.find?_some h
  simpa using this

theorem find?_updateRunList_same (ru : JobRun) : ∀ l : List JobRun,
    (updateRunList ru l).find? (fun z => z.runId == ru.runId) = some ru := by
  intro l
  induction l with
  | nil => simp [updateRunList]
  | cons a as ih =>
    unfold updateRunList
    by_cases ha : a.runId = ru.runId
    · rw [if_pos (by simpa using ha), find?_runId_cons, if_pos rfl]
    · rw [if_neg (by simpa using ha), find?_runId_cons, if_neg ha]
      exact ih

theorem find?_updateRunList_other (ru : JobRun) (rid : Nat) (hne : rid ≠ ru.runId) :
    ∀ l : List JobRun,
    (updateRunList ru l).find? (fun z => z.runId == rid) = l.find? (fun z => z.runId == rid) := by
  intro l
  induction l with
  | nil =>
    simp only [updateRunList, List.find?_nil]
    rw [find?_runId_cons, if_neg (fun h => hne (h.symm)), List.find?_nil]
  | cons a as ih =>
    unfold updateRunList
    by_cases ha : a.runId = ru.runId
    · rw [if_pos (by simpa using ha), find?_runId_cons, find?_runId_cons]
      rw [if_neg (fun h => hne h.symm), if_neg (fun h => hne (by rw [← ha]; exact h.symm))]
    · rw [if_neg (by simpa using ha), find?_runId_cons, find?_runId_cons]
      by_cases hb : a.runId = rid
      · rw [if_pos hb, if_pos hb]
      · rw [if_neg hb, if_neg hb]
        exact ih

theorem updateRunList_eq_self (ru : JobRun) : ∀ l : List JobRun,
    l.find? (fun z => z.runId == ru.runId) = some ru → updateRunList ru l = l := by
  intro l
  induction l with
  | nil => intro h; simp at h
  | cons a as ih =>
    intro h
    rw [find?_runId_cons] at h
    unfold updateRunList
    by_cases ha : a.runId = ru.runId
    · rw [if_pos (by simpa using ha)]
      rw [if_pos ha] at h
      injection h with h
      rw [h]
    · rw [if_neg (by simpa using ha)]
      rw [if_neg ha] at h
      rw [ih h]

theorem updateRunList_append (ru : JobRun) : ∀ l : List JobRun,
    l.find? (fun z => z.runId == ru.runId) = none → updateRunList ru l = l ++ [ru] := by
  intro l
  induction l with
  | nil => intro _; rfl
  | cons a as ih =>
    intro h
    rw [find?_runId_cons] at h
    unfold updateRunList
    by_cases ha : a.runId = ru.runId
    · rw [if_pos ha] at h
      exact absurd h (by simp)
    · rw [if_neg (by simpa using ha)]
      rw [if_neg ha] at h
      rw [ih h]
      rfl

theorem runFlagsLe_refl (x : JobRun) : runFlagsLe x x :=
  ⟨fun h => h, fun h => h, fun h => h, fun h => h⟩

theorem runFlagsLe_trans {x y z : JobRun} (h1 : runFlagsLe x y) (h2 : runFlagsLe y z) :
    runFlagsLe x z :=
  ⟨fun h => h2.1 (h1.1 h), fun h => h2.2.1 (h1.2.1 h), fun h => h2.2.2.1 (h1.2.2.1 h),
   fun h => h2.2.2.2 (h1.2.2.2 h)⟩

theorem updateRunList_preserve_rel (P : JobRun → JobRun → Prop)
    (hrefl : ∀ x, P x x) (ru0 ru' : JobRun) (hid : ru'.runId = ru0.runId) (h0 : P ru0 ru') :
    ∀ l : List JobRun, l.find? (fun z => z.runId == ru'.runId) = some ru0 →
    ∀ x ∈ l, ∃ y, y ∈ updateRunList ru' l ∧ y.runId = x.runId ∧ P x y := by
  intro l
  induction l with
  | nil => intro h x hx; cases hx
  | cons a as ih =>
    intro hfind x hx
    rw [find?_runId_cons] at hfind
    unfold updateRunList
    by_cases ha : a.runId = ru'.runId
    · rw [if_pos ha] at hfind
      injection hfind with hfind
      rw [if_pos (by simpa using ha)]
      cases hx with
      | head as =>
        refine ⟨ru', List.mem_cons_self _ _, ?_, ?_⟩
        · rw [hid, hfind]
        · rw [← hfind] at h0; exact h0
      | tail b hx =>
        exact ⟨x, List.mem_cons_of_mem _ hx, rfl, hrefl x⟩
    · rw [if_neg ha] at hfind
      rw [if_neg (by simpa using ha)]
      cases hx with
      | head as => exact ⟨a, List.mem_cons_self _ _, rfl, hrefl a⟩
      | tail b hx =>
        obtain ⟨y, hy, hyid, hP⟩ := ih hfind x hx
        exact ⟨y, List.mem_cons_of_mem _ hy, hyid, hP⟩


/-! ### Unfolding equations of `reconcileJobDifferences` -/

theorem reconcileJobDifferences_none_none (rs : List DbRun) :
    reconcileJobDifferences none none rs = .ok emptyJST := rfl

theorem reconcileJobDifferences_some_none (j : Job) (rs : List DbRun) :
    reconcileJobDifferences (some j) none rs =
      .ok { (applyRunDeltas j emptyJST rs).2 with job := some (applyRunDeltas j emptyJST rs).1 } := rfl

theorem reconcileJobDifferences_none_some_ok (r : DbJob) (j0 : Job) (rs : List DbRun)
    (h : schedulerJobFromDatabaseJob r = .ok j0) :
    reconcileJobDifferences none (some r) rs =
      .ok { (applyRunDeltas j0 { emptyJST with queued := true } rs).2 with
            job := some (applyRunDeltas j0 { emptyJST with queued := true } rs).1 } := by
  simp only [reconcileJobDifferences]
  rw [h]

theorem reconcileJobDifferences_none_some_err (r : DbJob) (rs : List DbRun) (e : String)
    (h : schedulerJobFromDatabaseJob r = .error e) :
    reconcileJobDifferences none (some r) rs = .error e := by
  simp only [reconcileJobDifferences]
  rw [h]

theorem reconcileJobDifferences_some_some_ok (j : Job) (r : DbJob) (jm : Job) (rs : List DbRun)
    (h : reconcileExistingJob j r = .ok jm) :
    reconcileJobDifferences (some j) (some r) rs =
      .ok { (applyRunDeltas jm emptyJST rs).2 with job := some (applyRunDeltas jm emptyJST rs).1 } := by
  simp only [reconcileJobDifferences]
  rw [h]

theorem reconcileJobDifferences_some_some_err (j : Job) (r : DbJob) (rs : List DbRun) (e : String)
    (h : reconcileExistingJob j r = .error e) :
    reconcileJobDifferences (some j) (some r) rs = .error e := by
  simp only [reconcileJobDifferences]
  rw [h]

/-! ### The run-delta loop -/

/-- All six state flags of a run are monotone between two runs. -/
def runFlagsAll (a b : JobRun) : Prop :=
  (a.running = true → b.running = true) ∧ (a.succeeded = true → b.succeeded = true) ∧
  (a.failed = true → b.failed = true) ∧ (a.cancelled = true → b.cancelled = true) ∧
  (a.returned = true → b.returned = true) ∧ (a.runAttempted = true → b.runAttempted = true)

theorem mergeRun_mono_all (ru : JobRun) (dr : DbRun) : runFlagsAll ru (mergeRun ru dr).1 := by
  refine ⟨?_, ?_, ?_, ?_, ?_, ?_⟩ <;> simp_all

theorem dbRunFlagsLe_trans_all {dr : DbRun} {a b : JobRun}
    (h1 : dbRunFlagsLe dr a) (h2 : runFlagsAll a b) : dbRunFlagsLe dr b :=
  ⟨fun h => h2.1 (h1.1 h), fun h => h2.2.1 (h1.2.1 h), fun h => h2.2.2.1 (h1.2.2.1 h),
   fun h => h2.2.2.2.1 (h1.2.2.2.1 h), fun h => h2.2.2.2.2.1 (h1.2.2.2.2.1 h),
   fun h => h2.2.2.2.2.2 (h1.2.2.2.2.2 h)⟩

theorem schedulerRunFromDatabaseRun_covers (dr : DbRun) :
    dbRunFlagsLe dr (schedulerRunFromDatabaseRun dr) := by
  refine ⟨?_, ?_, ?_, ?_, ?_, ?_⟩ <;> intro h <;> simpa [schedulerRunFromDatabaseRun] using h

/-- Shape of one iteration of the run loop: the reconciled run always
exists, carries the row's id, subsumes the row's flags, and is either the
merge with the existing run of that id or a fresh run from the row. -/
theorem reconcileRunDifferences_step (j : Job) (dr : DbRun) :
    ∃ ru', (reconcileRunDifferences (j.runById dr.runId) (some dr)).jobRun = some ru' ∧
      ru'.runId = dr.runId ∧ dbRunFlagsLe dr ru' ∧
      ((∃ ru0, j.runById dr.runId = some ru0 ∧ ru0.runId = dr.runId ∧
          ru' = (mergeRun ru0 dr).1 ∧ runFlagsLe ru0 ru' ∧ runFlagsAll ru0 ru') ∨
       (j.runById dr.runId = none ∧ ru' = schedulerRunFromDatabaseRun dr)) := by
  cases h : j.runById dr.runId with
  | none =>
    refine ⟨schedulerRunFromDatabaseRun dr, rfl, rfl, schedulerRunFromDatabaseRun_covers dr,
      Or.inr ⟨rfl, rfl⟩⟩
  | some ru0 =>
    have hid : ru0.runId = dr.runId := (find?_runId_props h).2
    refine ⟨(mergeRun ru0 dr).1, mergeRun_snd_jobRun ru0 dr, ?_, mergeRun_covers ru0 dr,
      Or.inl ⟨ru0, rfl, hid, rfl, mergeRun_mono ru0 dr, mergeRun_mono_all ru0 dr⟩⟩
    rw [mergeRun_fst_runId, hid]


theorem applyRunDeltas_cons (j : Job) (jst : JobStateTransitions) (dr : DbRun) (rest : List DbRun) :
    applyRunDeltas j jst (dr :: rest) =
      applyRunDeltas
        (match (reconcileRunDifferences (j.runById dr.runId) (some dr)).jobRun with
         | some ru => j.withUpdatedRun ru
         | none => j)
        (jst.applyRunStateTransitions (reconcileRunDifferences (j.runById dr.runId) (some dr)))
        rest := rfl

/-- The fields of a job a run-delta loop never touches. -/
def sameJobCore (a b : Job) : Prop :=
  a.id = b.id ∧ a.jobSet = b.jobSet ∧ a.queue = b.queue ∧
  a.requestedPriority = b.requestedPriority ∧ a.schedulingInfo = b.schedulingInfo ∧
  a.queued = b.queued ∧ a.queuedVersion = b.queuedVersion ∧
  a.cancelRequested = b.cancelRequested ∧ a.cancelByJobsetRequested = b.cancelByJobsetRequested ∧
  a.cancelled = b.cancelled ∧ a.succeeded = b.succeeded ∧ a.failed = b.failed ∧
  a.submitted = b.submitted

theorem sameJobCore_refl (a : Job) : sameJobCore a a :=
  ⟨rfl, rfl, rfl, rfl, rfl, rfl, rfl, rfl, rfl, rfl, rfl, rfl, rfl⟩

theorem sameJobCore_trans {a b c : Job} (h1 : sameJobCore a b) (h2 : sameJobCore b c) :
    sameJobCore a c := by
  obtain ⟨a1, a2, a3, a4, a5, a6, a7, a8, a9, a10, a11, a12, a13⟩ := h1
  obtain ⟨b1, b2, b3, b4, b5, b6, b7, b8, b9, b10, b11, b12, b13⟩ := h2
  exact ⟨a1.trans b1, a2.trans b2, a3.trans b3, a4.trans b4, a5.trans b5, a6.trans b6,
    a7.trans b7, a8.trans b8, a9.trans b9, a10.trans b10, a11.trans b11, a12.trans b12,
    a13.trans b13⟩

theorem sameJobCore_withUpdatedRun (j : Job) (ru : JobRun) :
    sameJobCore (j.withUpdatedRun ru) j :=
  ⟨rfl, rfl, rfl, rfl, rfl, rfl, rfl, rfl, rfl, rfl, rfl, rfl, rfl⟩

/-- Everything the later claims need about the run-delta loop: it leaves
the non-run fields unchanged, preserves run coverage, establishes coverage
of every processed row, and never clears a run's monotone flags. -/
theorem applyRunDeltas_main : ∀ (rs : List DbRun) (j : Job) (jst : JobStateTransitions),
    sameJobCore (applyRunDeltas j jst rs).1 j ∧
    (∀ dr', dbRunCovered j dr' → dbRunCovered (applyRunDeltas j jst rs).1 dr') ∧
    (∀ dr ∈ rs, dbRunCovered (applyRunDeltas j jst rs).1 dr) ∧
    (∀ x ∈ j.runs, ∃ y, y ∈ (applyRunDeltas j jst rs).1.runs ∧ y.runId = x.runId ∧ runFlagsLe x y) := by
  intro rs
  induction rs with
  | nil =>
    intro j jst
    refine ⟨sameJobCore_refl j, fun dr' h => h, fun dr h => absurd h (List.not_mem_nil dr), ?_⟩
    intro x hx
    exact ⟨x, hx, rfl, runFlagsLe_refl x⟩
  | cons dr rest ih =>
    intro j jst
    obtain ⟨ru', hru, hid, hcov, hcase⟩ := reconcileRunDifferences_step j dr
    rw [applyRunDeltas_cons, hru]
    have h1 : (j.withUpdatedRun ru').runById dr.runId = some ru' := by
      simp only [Job.runById, Job.withUpdatedRun_runs]
      rw [← hid]
      exact find?_updateRunList_same ru' j.runs
    have hpres : ∀ dr', dbRunCovered j dr' → dbRunCovered (j.withUpdatedRun ru') dr' := by
      intro dr' hc
      obtain ⟨ru, hfind, hle⟩ := hc
      by_cases hrid : dr'.runId = ru'.runId
      · refine ⟨ru', ?_, ?_⟩
        · simp only [Job.runById, Job.withUpdatedRun_runs]
          rw [hrid]
          exact find?_updateRunList_same ru' j.runs
        · rcases hcase with ⟨ru0, hfind0, hid0, hmerge, hle4, hall⟩ | ⟨hnone, hnew⟩
          · have hru0 : ru = ru0 := by
              rw [Job.runById] at hfind hfind0
              rw [show dr'.runId = dr.runId from by rw [hrid, hid]] at hfind
              rw [hfind] at hfind0
              injection hfind0
            subst hru0
            exact dbRunFlagsLe_trans_all hle hall
          · rw [Job.runById] at hfind
            rw [show dr'.runId = dr.runId from by rw [hrid, hid]] at hfind
            rw [Job.runById] at hnone
            rw [hfind] at hnone
            exact absurd hnone (by simp)
      · refine ⟨ru, ?_, hle⟩
        simp only [Job.runById, Job.withUpdatedRun_runs]
        rw [find?_updateRunList_other ru' dr'.runId hrid]
        exact hfind
    have hcovd : dbRunCovered (j.withUpdatedRun ru') dr := ⟨ru', h1, hcov⟩
    have hmono : ∀ x ∈ j.runs,
        ∃ y, y ∈ (j.withUpdatedRun ru').runs ∧ y.runId = x.runId ∧ runFlagsLe x y := by
      rcases hcase with ⟨ru0, hfind0, hid0, hmerge, hle4, hall⟩ | ⟨hnone, hnew⟩
      · intro x hx
        have hf : j.runs.find? (fun z => z.runId == ru'.runId) = some ru0 := by
          rw [Job.runById] at hfind0
          rw [hid]
          exact hfind0
        have hid2 : ru'.runId = ru0.runId := by rw [hid, hid0]
        have h0 : runFlagsLe ru0 ru' := hle4
        obtain ⟨y, hy, hyid, hP⟩ :=
          updateRunList_preserve_rel runFlagsLe runFlagsLe_refl ru0 ru' hid2 h0 j.runs hf x hx
        exact ⟨y, by simpa [Job.withUpdatedRun_runs] using hy, hyid, hP⟩
      · intro x hx
        refine ⟨x, ?_, rfl, runFlagsLe_refl x⟩
        simp only [Job.withUpdatedRun_runs]
        have hf : j.runs.find? (fun z => z.runId == ru'.runId) = none := by
          rw [Job.runById] at hnone
          rw [hid]
          exact hnone
        rw [updateRunList_append ru' j.runs hf]
        exact List.mem_append_left _ hx
    obtain ⟨ihcore, ihpres, ihrs, ihmono⟩ :=
      ih (j.withUpdatedRun ru')
        (jst.applyRunStateTransitions (reconcileRunDifferences (j.runById dr.runId) (some dr)))
    refine ⟨sameJobCore_trans ihcore (sameJobCore_withUpdatedRun j ru'), ?_, ?_, ?_⟩
    · intro dr' hc
      exact ihpres dr' (hpres dr' hc)
    · intro dr0 hdr0
      cases hdr0 with
      | head _ => exact ihpres dr (hcovd)
      | tail _ hmem => exact ihrs dr0 hmem
    · intro x hx
      obtain ⟨y, hy, hyid, hP⟩ := hmono x hx
      obtain ⟨z, hz, hzid, hQ⟩ := ihmono y hy
      exact ⟨z, hz, hzid.trans hyid, runFlagsLe_trans hP hQ⟩


/-- A run-delta loop over rows whose flags the job's runs already subsume
leaves the job unchanged. -/
theorem applyRunDeltas_fix : ∀ (rs : List DbRun) (j : Job) (jst : JobStateTransitions),
    (∀ dr ∈ rs, dbRunCovered j dr) → (applyRunDeltas j jst rs).1 = j := by
  intro rs
  induction rs with
  | nil => intro j jst _; rfl
  | cons dr rest ih =>
    intro j jst hcov
    obtain ⟨ru, hfind, hle⟩ := hcov dr (List.mem_cons_self dr rest)
    have hruid : ru.runId = dr.runId := by
      rw [Job.runById] at hfind
      exact (find?_runId_props hfind).2
    have hmerge : (mergeRun ru dr).1 = ru := mergeRun_eq_self ru dr hle
    have hstep : (reconcileRunDifferences (j.runById dr.runId) (some dr)).jobRun = some ru := by
      rw [hfind]
      rw [show reconcileRunDifferences (some ru) (some dr) = (mergeRun ru dr).2 from rfl]
      rw [mergeRun_snd_jobRun, hmerge]
    rw [applyRunDeltas_cons, hstep]
    show (applyRunDeltas (j.withUpdatedRun ru)
      (jst.applyRunStateTransitions (reconcileRunDifferences (j.runById dr.runId) (some dr)))
      rest).1 = j
    have hupd : j.withUpdatedRun ru = j := by
      have hf : j.runs.find? (fun z => z.runId == ru.runId) = some ru := by
        rw [Job.runById] at hfind
        rw [hruid]
        exact hfind
      apply Job.ext_j <;> simp [Job.withUpdatedRun]
      exact updateRunList_eq_self ru j.runs hf
    rw [hupd]
    exact ih j _ (fun dr0 h0 => hcov dr0 (List.mem_cons_of_mem dr h0))


theorem jobFlagsLe_refl (a : Job) : jobFlagsLe a a :=
  ⟨fun h => h, fun h => h, fun h => h, fun h => h⟩

theorem jobFlagsLe_trans {a b c : Job} (h1 : jobFlagsLe a b) (h2 : jobFlagsLe b c) :
    jobFlagsLe a c :=
  ⟨fun h => h2.1 (h1.1 h), fun h => h2.2.1 (h1.2.1 h), fun h => h2.2.2.1 (h1.2.2.1 h),
   fun h => h2.2.2.2 (h1.2.2.2 h)⟩

theorem jobFlagsLe_of_core {a b : Job} (h : sameJobCore a b) : jobFlagsLe b a := by
  obtain ⟨-, -, -, -, -, -, -, h8, -, h10, h11, h12, -⟩ := h
  exact ⟨fun hx => by rw [h11, hx], fun hx => by rw [h12, hx], fun hx => by rw [h10, hx],
    fun hx => by rw [h8, hx]⟩

theorem mergeFlags_jobFlagsLe (j : Job) (r : DbJob) (j' : Job)
    (h : reconcileExistingJob j r = .ok j') : jobFlagsLe j j' := by
  obtain ⟨-, -, -, -, -, hcr, -, hc, hs, hf, -, -, -, -⟩ := reconcileExistingJob_ok j r j' h
  exact ⟨fun hx => by rw [hs, hx]; rfl, fun hx => by rw [hf, hx]; rfl,
    fun hx => by rw [hc, hx]; rfl, fun hx => by rw [hcr, hx]; rfl⟩

theorem applyRunDeltas_jst_queued : ∀ (rs : List DbRun) (j : Job) (jst : JobStateTransitions),
    jst.queued = true → (applyRunDeltas j jst rs).2.queued = true := by
  intro rs
  induction rs with
  | nil => intro j jst h; exact h
  | cons dr rest ih =>
    intro j jst h
    rw [applyRunDeltas_cons]
    cases hru : (reconcileRunDifferences (j.runById dr.runId) (some dr)).jobRun with
    | some ru =>
      apply ih
      simp [JobStateTransitions.applyRunStateTransitions, h]
    | none =>
      apply ih
      simp [JobStateTransitions.applyRunStateTransitions, h]


/-- C1: for every job and every run processed by reconciliation, the flags
succeeded, failed, cancelled, cancel-requested and run-attempted never
transition from true to false: whenever such a flag is set in the existing
jobDb snapshot, the snapshot reconciled from any repository row (and any
run rows) still has it set. -/
theorem C1_monotone_flags (j : Job) (r? : Option DbJob) (rs : List DbRun)
    (jst : JobStateTransitions) (j' : Job)
    (hok : reconcileJobDifferences (some j) r? rs = .ok jst) (hj : jst.job = some j') :
    jobFlagsLe j j' ∧
    ∀ x ∈ j.runs, ∃ y, y ∈ j'.runs ∧ y.runId = x.runId ∧ runFlagsLe x y := by
  cases r? with
  | none =>
    rw [reconcileJobDifferences_some_none] at hok
    injection hok with hok
    rw [← hok] at hj
    simp only [] at hj
    injection hj with hj
    obtain ⟨hcore, -, -, hmono⟩ := applyRunDeltas_main rs j emptyJST
    rw [← hj]
    exact ⟨jobFlagsLe_of_core hcore, hmono⟩
  | some r =>
    cases hm : reconcileExistingJob j r with
    | error e =>
      rw [reconcileJobDifferences_some_some_err j r rs e hm] at hok
      exact absurd hok (by simp)
    | ok jm =>
      rw [reconcileJobDifferences_some_some_ok j r jm rs hm] at hok
      injection hok with hok
      rw [← hok] at hj
      simp only [] at hj
      injection hj with hj
      obtain ⟨hcore, -, -, hmono⟩ := applyRunDeltas_main rs jm emptyJST
      obtain ⟨-, -, -, -, hruns, -⟩ := reconcileExistingJob_ok j r jm hm
      rw [← hj]
      refine ⟨jobFlagsLe_trans (mergeFlags_jobFlagsLe j r jm hm) (jobFlagsLe_of_core hcore), ?_⟩
      intro x hx
      rw [← hruns] at hx
      exact hmono x hx


/-- C2: job reconciliation performs the four-case merge on each observed
job id: with neither snapshot nor repository row the result is a no-op;
with only the repository row a new job is built by unmarshalling its
scheduling info (propagating an unmarshalling error) and the Queued
transition is marked; with only the jobDb snapshot the job is not directly
mutated and only the run deltas are applied; with both, the field-by-field
monotone merge is applied before the run deltas. -/
theorem C2_four_case_merge (rs : List DbRun) :
    (reconcileJobDifferences none none rs = .ok emptyJST ∧ emptyJST.job = none) ∧
    (∀ r : DbJob,
      (∀ e, schedulerJobFromDatabaseJob r = .error e →
        reconcileJobDifferences none (some r) rs = .error e) ∧
      (∀ j0, schedulerJobFromDatabaseJob r = .ok j0 →
        ∃ jst, reconcileJobDifferences none (some r) rs = .ok jst ∧ jst.queued = true ∧
          jst.job = some (applyRunDeltas j0 { emptyJST with queued := true } rs).1)) ∧
    (∀ j : Job, ∃ jst, reconcileJobDifferences (some j) none rs = .ok jst ∧
      jst.job = some (applyRunDeltas j emptyJST rs).1 ∧ (rs = [] → jst.job = some j)) ∧
    (∀ j r jm, reconcileExistingJob j r = .ok jm →
      ∃ jst, reconcileJobDifferences (some j) (some r) rs = .ok jst ∧
        jst.job = some (applyRunDeltas jm emptyJST rs).1) := by
  refine ⟨⟨reconcileJobDifferences_none_none rs, rfl⟩, ?_, ?_, ?_⟩
  · intro r
    refine ⟨fun e he => reconcileJobDifferences_none_some_err r rs e he, ?_⟩
    intro j0 h0
    refine ⟨_, reconcileJobDifferences_none_some_ok r j0 rs h0, ?_, rfl⟩
    exact applyRunDeltas_jst_queued rs j0 { emptyJST with queued := true } rfl
  · intro j
    refine ⟨_, reconcileJobDifferences_some_none j rs, rfl, ?_⟩
    intro h
    subst h
    rfl
  · intro j r jm hm
    exact ⟨_, reconcileJobDifferences_some_some_ok j r jm rs hm, rfl⟩

/-- C3: in the both-present case of job reconciliation, the scheduling info
is replaced (from the repository row's unmarshalled bytes) exactly when the
repository scheduling-info version is strictly greater than the local one,
and the queued flag is copied (with the queued-version updated) exactly
when the repository queued-version is strictly greater than the local
queued-version; otherwise both are left unchanged. -/
theorem C3_version_gates (j : Job) (r : DbJob) (rs : List DbRun)
    (jst : JobStateTransitions) (j' : Job)
    (hok : reconcileJobDifferences (some j) (some r) rs = .ok jst) (hj : jst.job = some j') :
    (r.schedulingInfoVersion > j.schedulingInfo.version →
      r.schedulingInfoBytes = some j'.schedulingInfo) ∧
    (¬ r.schedulingInfoVersion > j.schedulingInfo.version →
      j'.schedulingInfo = j.schedulingInfo) ∧
    (r.queuedVersion > j.queuedVersion →
      j'.queued = r.queued ∧ j'.queuedVersion = r.queuedVersion) ∧
    (¬ r.queuedVersion > j.queuedVersion →
      j'.queued = j.queued ∧ j'.queuedVersion = j.queuedVersion) := by
  cases hm : reconcileExistingJob j r with
  | error e =>
    rw [reconcileJobDifferences_some_some_err j r rs e hm] at hok
    exact absurd hok (by simp)
  | ok jm =>
    rw [reconcileJobDifferences_some_some_ok j r jm rs hm] at hok
    injection hok with hok
    rw [← hok] at hj
    simp only [] at hj
    injection hj with hj
    obtain ⟨hcore, -, -, -⟩ := applyRunDeltas_main rs jm emptyJST
    obtain ⟨-, -, -, -, -, -, -, -, -, -, -, hsi, hq, hqv⟩ := reconcileExistingJob_ok j r jm hm
    obtain ⟨-, -, -, -, hsi2, hq2, hqv2, -⟩ := hcore
    rw [← hj]
    refine ⟨?_, ?_, ?_, ?_⟩
    · intro hv
      rw [if_pos hv] at hsi
      rw [hsi2]
      exact hsi
    · intro hv
      rw [if_neg hv] at hsi
      rw [hsi2]
      exact hsi
    · intro hv
      rw [if_pos hv] at hq hqv
      rw [hq2, hqv2]
      exact ⟨hq, hqv⟩
    · intro hv
      rw [if_neg hv] at hq hqv
      rw [hq2, hqv2]
      exact ⟨hq, hqv⟩

/-- C10: merging a run's state transitions into its job's transition record
feeds the run's Returned transition into the job's Queued flag, ORs every
other run transition flag into the same-named job flag, and never clears a
job transition flag that was already set. -/
theorem C10_applyRunStateTransitions (jst : JobStateTransitions) (rst : RunStateTransitions) :
    (jst.applyRunStateTransitions rst).queued = (jst.queued || rst.returned) ∧
    (jst.applyRunStateTransitions rst).scheduled = (jst.scheduled || rst.scheduled) ∧
    (jst.applyRunStateTransitions rst).pending = (jst.pending || rst.pending) ∧
    (jst.applyRunStateTransitions rst).running = (jst.running || rst.running) ∧
    (jst.applyRunStateTransitions rst).cancelled = (jst.cancelled || rst.cancelled) ∧
    (jst.applyRunStateTransitions rst).preempted = (jst.preempted || rst.preempted) ∧
    (jst.applyRunStateTransitions rst).failed = (jst.failed || rst.failed) ∧
    (jst.applyRunStateTransitions rst).succeeded = (jst.succeeded || rst.succeeded) ∧
    (jst.applyRunStateTransitions rst).job = jst.job ∧
    (jst.queued = true → (jst.applyRunStateTransitions rst).queued = true) ∧
    (jst.scheduled = true → (jst.applyRunStateTransitions rst).scheduled = true) ∧
    (jst.pending = true → (jst.applyRunStateTransitions rst).pending = true) ∧
    (jst.running = true → (jst.applyRunStateTransitions rst).running = true) ∧
    (jst.cancelled = true → (jst.applyRunStateTransitions rst).cancelled = true) ∧
    (jst.preempted = true → (jst.applyRunStateTransitions rst).preempted = true) ∧
    (jst.failed = true → (jst.applyRunStateTransitions rst).failed = true) ∧
    (jst.succeeded = true → (jst.applyRunStateTransitions rst).succeeded = true) := by
  refine ⟨rfl, rfl, rfl, rfl, rfl, rfl, rfl, rfl, rfl, ?_, ?_, ?_, ?_, ?_, ?_, ?_, ?_⟩ <;>
    intro h <;> simp [JobStateTransitions.applyRunStateTransitions, h]


/-! ### Generic `mapM` lemmas over `Except` -/

theorem exceptMapM_cons_ok {α β : Type} (f : α → Except String β) (x : α) (xs : List α)
    (ys : List β) (h : (x :: xs).mapM f = .ok ys) :
    ∃ y ys2, f x = .ok y ∧ xs.mapM f = .ok ys2 ∧ ys = y :: ys2 := by
  rw [List.mapM_cons] at h
  cases hx : f x with
  | error e => rw [hx] at h; exact absurd h (by simp [Bind.bind, Except.bind])
  | ok y =>
    rw [hx] at h
    cases hxs : xs.mapM f with
    | error e =>
      rw [hxs] at h
      exact absurd h (by simp [Bind.bind, Except.bind, Pure.pure, Except.pure])
    | ok ys2 =>
      rw [hxs] at h
      refine ⟨y, ys2, rfl, rfl, ?_⟩
      have : (Except.ok (y :: ys2) : Except String (List β)) = .ok ys := by
        simpa [Bind.bind, Except.bind, Pure.pure, Except.pure] using h
      injection this with this
      rw [this]

theorem exceptMapM_mem_ok {α β : Type} (f : α → Except String β) :
    ∀ (xs : List α) (ys : List β), xs.mapM f = .ok ys →
    ∀ y ∈ ys, ∃ x ∈ xs, f x = .ok y := by
  intro xs
  induction xs with
  | nil =>
    intro ys h y hy
    rw [show ([] : List α).mapM f = Except.ok [] from rfl] at h
    injection h with h
    subst h
    cases hy
  | cons x xs ih =>
    intro ys h y hy
    obtain ⟨y0, ys2, hx, hxs, rfl⟩ := exceptMapM_cons_ok f x xs ys h
    cases hy with
    | head _ => exact ⟨x, List.mem_cons_self x xs, hx⟩
    | tail _ hy =>
      obtain ⟨x2, hx2, hfx2⟩ := ih ys2 hxs y hy
      exact ⟨x2, List.mem_cons_of_mem x hx2, hfx2⟩

theorem exceptMapM_ok_of_pointwise {α β : Type} (f : α → Except String β) :
    ∀ (xs : List α), (∀ x ∈ xs, ∃ y, f x = .ok y) → ∃ ys, xs.mapM f = .ok ys := by
  intro xs
  induction xs with
  | nil => intro _; exact ⟨[], rfl⟩
  | cons x xs ih =>
    intro h
    obtain ⟨y, hy⟩ := h x (List.mem_cons_self x xs)
    obtain ⟨ys, hys⟩ := ih (fun z hz => h z (List.mem_cons_of_mem x hz))
    refine ⟨y :: ys, ?_⟩
    rw [List.mapM_cons, hy, hys]
    simp [Bind.bind, Except.bind, Pure.pure, Except.pure]

theorem exceptMapM_error_of_mem {α β : Type} (f : α → Except String β) :
    ∀ (xs : List α) (x : α), x ∈ xs → (∀ y, f x ≠ .ok y) →
    ∀ ys, xs.mapM f ≠ .ok ys := by
  intro xs
  induction xs with
  | nil => intro x hx; cases hx
  | cons a as ih =>
    intro x hx hbad ys h
    obtain ⟨y, ys2, ha, has, rfl⟩ := exceptMapM_cons_ok f a as ys h
    cases hx with
    | head _ => exact hbad y ha
    | tail _ hx => exact ih x hx hbad ys2 has


/-! ### jobDb lookup and upsert -/

theorem dbLookup_cons (db : JobDbMap) (a : Job) (id : String) :
    dbLookup (a :: db) id = if a.id = id then some a else dbLookup db id := by
  rw [dbLookup, List.find?_cons]
  by_cases h : a.id = id
  · simp [h, dbLookup]
  · have hb : (a.id == id) = false := by simpa using h
    simp [hb, h, dbLookup]

theorem dbLookup_id : ∀ (db : JobDbMap) (id : String) (j : Job),
    dbLookup db id = some j → j.id = id := by
  intro db id j h
  rw [dbLookup] at h
  have := List.find?_some h
  simpa using this

theorem dbUpsert_lookup_same : ∀ (db : JobDbMap) (j : Job),
    dbLookup (dbUpsert db j) j.id = some j := by
  intro db j
  induction db with
  | nil => simp [dbUpsert, dbLookup_cons]
  | cons a as ih =>
    rw [dbUpsert]
    by_cases ha : a.id = j.id
    · rw [if_pos (by simpa using ha), dbLookup_cons, if_pos rfl]
    · rw [if_neg (by simpa using ha), dbLookup_cons, if_neg ha]
      exact ih

theorem dbUpsert_lookup_other : ∀ (db : JobDbMap) (j : Job) (id : String), id ≠ j.id →
    dbLookup (dbUpsert db j) id = dbLookup db id := by
  intro db j id hne
  induction db with
  | nil =>
    simp only [dbUpsert]
    rw [dbLookup_cons, if_neg (fun h => hne h.symm)]
  | cons a as ih =>
    rw [dbUpsert]
    by_cases ha : a.id = j.id
    · rw [if_pos (by simpa using ha), dbLookup_cons, dbLookup_cons]
      rw [if_neg (fun h => hne h.symm), if_neg (by rw [ha]; exact fun h => hne h.symm)]
    · rw [if_neg (by simpa using ha), dbLookup_cons, dbLookup_cons]
      by_cases hb : a.id = id
      · rw [if_pos hb, if_pos hb]
      · rw [if_neg hb, if_neg hb]
        exact ih

theorem dbUpsert_self : ∀ (db : JobDbMap) (j : Job),
    dbLookup db j.id = some j → dbUpsert db j = db := by
  intro db j
  induction db with
  | nil => intro h; simp [dbLookup] at h
  | cons a as ih =>
    intro h
    rw [dbLookup_cons] at h
    rw [dbUpsert]
    by_cases ha : a.id = j.id
    · rw [if_pos (by simpa using ha)]
      rw [if_pos ha] at h
      injection h with h
      rw [h]
    · rw [if_neg (by simpa using ha)]
      rw [if_neg ha] at h
      rw [ih h]

/-- One upsert step of `upsertTransitions`. -/
def applyJst (acc : JobDbMap) (jst : JobStateTransitions) : JobDbMap :=
  match jst.job with
  | some j => dbUpsert acc j
  | none => acc

theorem upsertTransitions_cons (jst : JobStateTransitions) (jsts : List JobStateTransitions)
    (db : JobDbMap) :
    upsertTransitions (jst :: jsts) db = upsertTransitions jsts (applyJst db jst) := rfl

theorem upsertTransitions_notouch : ∀ (jsts : List JobStateTransitions) (acc : JobDbMap)
    (id : String), (∀ jst ∈ jsts, ∀ jj, jst.job = some jj → jj.id ≠ id) →
    dbLookup (upsertTransitions jsts acc) id = dbLookup acc id := by
  intro jsts
  induction jsts with
  | nil => intro acc id _; rfl
  | cons jst rest ih =>
    intro acc id h
    rw [upsertTransitions_cons]
    rw [ih (applyJst acc jst) id (fun z hz => h z (List.mem_cons_of_mem jst hz))]
    rw [applyJst]
    cases hj : jst.job with
    | none => rfl
    | some jj =>
      exact dbUpsert_lookup_other acc jj id
        (fun he => h jst (List.mem_cons_self jst rest) jj hj he.symm)

theorem upsertTransitions_fix : ∀ (jsts : List JobStateTransitions) (db : JobDbMap),
    (∀ jst ∈ jsts, ∀ jj, jst.job = some jj → dbLookup db jj.id = some jj) →
    upsertTransitions jsts db = db := by
  intro jsts
  induction jsts with
  | nil => intro db _; rfl
  | cons jst rest ih =>
    intro db h
    rw [upsertTransitions_cons]
    have hstep : applyJst db jst = db := by
      rw [applyJst]
      cases hj : jst.job with
      | none => rfl
      | some jj => exact dbUpsert_self db jj (h jst (List.mem_cons_self jst rest) jj hj)
    rw [hstep]
    exact ih db (fun z hz => h z (List.mem_cons_of_mem jst hz))


/-! ### Inversion and idempotence of per-id reconciliation -/

theorem dbJobCovered_of_core {a b : Job} (hcore : sameJobCore a b) {r : DbJob}
    (h : dbJobCovered b r) : dbJobCovered a r := by
  obtain ⟨-, -, -, h4, h5, -, h7, h8, h9, h10, h11, h12, -⟩ := hcore
  obtain ⟨c1, c2, c3, c4, c5, c6, c7, c8⟩ := h
  refine ⟨?_, ?_, ?_, ?_, ?_, ?_, ?_, ?_⟩
  · intro hx; rw [h8]; exact c1 hx
  · intro hx; rw [h9]; exact c2 hx
  · intro hx; rw [h10]; exact c3 hx
  · intro hx; rw [h11]; exact c4 hx
  · intro hx; rw [h12]; exact c5 hx
  · rw [h4]; exact c6
  · rw [h5]; exact c7
  · rw [h7]; exact c8

theorem reconcileJobDifferences_job_none (j0? : Option Job) (r? : Option DbJob)
    (rs : List DbRun) (jst : JobStateTransitions)
    (hok : reconcileJobDifferences j0? r? rs = .ok jst) (hj : jst.job = none) :
    j0? = none ∧ r? = none := by
  cases j0? with
  | some j0 =>
    exfalso
    cases r? with
    | none =>
      rw [reconcileJobDifferences_some_none] at hok
      injection hok with hok
      rw [← hok] at hj
      simp at hj
    | some r =>
      cases hm : reconcileExistingJob j0 r with
      | error e =>
        rw [reconcileJobDifferences_some_some_err j0 r rs e hm] at hok
        exact absurd hok (by simp)
      | ok jm =>
        rw [reconcileJobDifferences_some_some_ok j0 r jm rs hm] at hok
        injection hok with hok
        rw [← hok] at hj
        simp at hj
  | none =>
    cases r? with
    | none => exact ⟨rfl, rfl⟩
    | some r =>
      exfalso
      cases hm : schedulerJobFromDatabaseJob r with
      | error e =>
        rw [reconcileJobDifferences_none_some_err r rs e hm] at hok
        exact absurd hok (by simp)
      | ok j0 =>
        rw [reconcileJobDifferences_none_some_ok r j0 rs hm] at hok
        injection hok with hok
        rw [← hok] at hj
        simp at hj

theorem repoJobFor_props : ∀ (jobs : List DbJob) (id : String) (r : DbJob),
    repoJobFor jobs id = some r → r ∈ jobs ∧ r.jobId = id := by
  intro jobs id r h
  rw [repoJobFor] at h
  refine ⟨?_, ?_⟩
  · have := List.mem_of_find?_eq_some h
    exact (List.mem_reverse).1 this
  · have := List.find?_some h
    simpa using this

theorem reconcileJobDifferences_job_id (j0? : Option Job) (r? : Option DbJob)
    (rs : List DbRun) (jst : JobStateTransitions) (id : String)
    (hok : reconcileJobDifferences j0? r? rs = .ok jst)
    (hid0 : ∀ j0, j0? = some j0 → j0.id = id)
    (hidr : ∀ r, r? = some r → r.jobId = id) :
    ∀ jj, jst.job = some jj → jj.id = id := by
  intro jj hj
  cases j0? with
  | some j0 =>
    cases r? with
    | none =>
      rw [reconcileJobDifferences_some_none] at hok
      injection hok with hok
      rw [← hok] at hj
      simp only [] at hj
      injection hj with hj
      obtain ⟨hcore, -, -, -⟩ := applyRunDeltas_main rs j0 emptyJST
      rw [← hj, hcore.1]
      exact hid0 j0 rfl
    | some r =>
      cases hm : reconcileExistingJob j0 r with
      | error e =>
        rw [reconcileJobDifferences_some_some_err j0 r rs e hm] at hok
        exact absurd hok (by simp)
      | ok jm =>
        rw [reconcileJobDifferences_some_some_ok j0 r jm rs hm] at hok
        injection hok with hok
        rw [← hok] at hj
        simp only [] at hj
        injection hj with hj
        obtain ⟨hcore, -, -, -⟩ := applyRunDeltas_main rs jm emptyJST
        obtain ⟨hida, -⟩ := reconcileExistingJob_ok j0 r jm hm
        rw [← hj, hcore.1, hida]
        exact hid0 j0 rfl
  | none =>
    cases r? with
    | none =>
      rw [reconcileJobDifferences_none_none] at hok
      injection hok with hok
      rw [← hok] at hj
      exact absurd hj (by simp [emptyJST])
    | some r =>
      cases hm : schedulerJobFromDatabaseJob r with
      | error e =>
        rw [reconcileJobDifferences_none_some_err r rs e hm] at hok
        exact absurd hok (by simp)
      | ok j0 =>
        rw [reconcileJobDifferences_none_some_ok r j0 rs hm] at hok
        injection hok with hok
        rw [← hok] at hj
        simp only [] at hj
        injection hj with hj
        obtain ⟨hcore, -, -, -⟩ := applyRunDeltas_main rs j0 { emptyJST with queued := true }
        obtain ⟨-, hid1, -⟩ := schedulerJobFromDatabaseJob_ok r j0 hm
        rw [← hj, hcore.1, hid1]
        exact hidr r rfl


/-- A snapshot produced by one reconciliation covers the repository job row
(provided a row creating a fresh job is not already terminal) and all
processed run rows. -/
theorem reconcileJobDifferences_establishes (j0? : Option Job) (r? : Option DbJob)
    (rs : List DbRun) (jst : JobStateTransitions) (j1 : Job)
    (hok : reconcileJobDifferences j0? r? rs = .ok jst) (hj : jst.job = some j1)
    (hnew : j0? = none → ∀ r, r? = some r → r.succeeded = false ∧ r.failed = false) :
    (∀ r, r? = some r → dbJobCovered j1 r) ∧ (∀ dr ∈ rs, dbRunCovered j1 dr) := by
  cases j0? with
  | some j0 =>
    cases r? with
    | none =>
      rw [reconcileJobDifferences_some_none] at hok
      injection hok with hok
      rw [← hok] at hj
      simp only [] at hj
      injection hj with hj
      obtain ⟨-, -, hrs, -⟩ := applyRunDeltas_main rs j0 emptyJST
      rw [← hj]
      exact ⟨fun r hr => absurd hr (by simp), hrs⟩
    | some r =>
      cases hm : reconcileExistingJob j0 r with
      | error e =>
        rw [reconcileJobDifferences_some_some_err j0 r rs e hm] at hok
        exact absurd hok (by simp)
      | ok jm =>
        rw [reconcileJobDifferences_some_some_ok j0 r jm rs hm] at hok
        injection hok with hok
        rw [← hok] at hj
        simp only [] at hj
        injection hj with hj
        obtain ⟨hcore, -, hrs, -⟩ := applyRunDeltas_main rs jm emptyJST
        rw [← hj]
        refine ⟨?_, hrs⟩
        intro r2 hr2
        injection hr2 with hr2
        subst hr2
        exact dbJobCovered_of_core hcore (reconcileExistingJob_covers j0 r jm hm)
  | none =>
    cases r? with
    | none =>
      rw [reconcileJobDifferences_none_none] at hok
      injection hok with hok
      rw [← hok] at hj
      exact absurd hj (by simp [emptyJST])
    | some r =>
      cases hm : schedulerJobFromDatabaseJob r with
      | error e =>
        rw [reconcileJobDifferences_none_some_err r rs e hm] at hok
        exact absurd hok (by simp)
      | ok j0 =>
        rw [reconcileJobDifferences_none_some_ok r j0 rs hm] at hok
        injection hok with hok
        rw [← hok] at hj
        simp only [] at hj
        injection hj with hj
        obtain ⟨hcore, -, hrs, -⟩ := applyRunDeltas_main rs j0 { emptyJST with queued := true }
        rw [← hj]
        refine ⟨?_, hrs⟩
        intro r2 hr2
        injection hr2 with hr2
        subst hr2
        obtain ⟨hsucc, hfail⟩ := hnew rfl r rfl
        exact dbJobCovered_of_core hcore
          (schedulerJobFromDatabaseJob_covers r j0 hm hsucc hfail)

/-- A snapshot that covers the repository rows reconciles to itself: the
second application of the same per-id delta is a no-op on the job. -/
theorem reconcileJobDifferences_covered_fix (j1 : Job) (r? : Option DbJob) (rs : List DbRun)
    (hjob : ∀ r, r? = some r → dbJobCovered j1 r)
    (hruns : ∀ dr ∈ rs, dbRunCovered j1 dr) :
    ∃ jst2, reconcileJobDifferences (some j1) r? rs = .ok jst2 ∧ jst2.job = some j1 := by
  cases r? with
  | none =>
    refine ⟨_, reconcileJobDifferences_some_none j1 rs, ?_⟩
    simp only []
    rw [applyRunDeltas_fix rs j1 emptyJST hruns]
  | some r =>
    have hm := reconcileExistingJob_eq_self j1 r (hjob r rfl)
    refine ⟨_, reconcileJobDifferences_some_some_ok j1 r j1 rs hm, ?_⟩
    simp only []
    rw [applyRunDeltas_fix rs j1 emptyJST hruns]

/-- Per-id idempotence of reconciliation: reapplying the same job row and
run rows to the snapshot produced by a first reconciliation returns that
snapshot unchanged (given fresh rows are not already terminal). -/
theorem reconcileJobDifferences_idem (j0? : Option Job) (r? : Option DbJob) (rs : List DbRun)
    (jst : JobStateTransitions) (j1 : Job)
    (hok : reconcileJobDifferences j0? r? rs = .ok jst) (hj : jst.job = some j1)
    (hnew : j0? = none → ∀ r, r? = some r → r.succeeded = false ∧ r.failed = false) :
    ∃ jst2, reconcileJobDifferences (some j1) r? rs = .ok jst2 ∧ jst2.job = some j1 := by
  obtain ⟨hjob, hruns⟩ := reconcileJobDifferences_establishes j0? r? rs jst j1 hok hj hnew
  exact reconcileJobDifferences_covered_fix j1 r? rs hjob hruns


/-- The per-id reconciliation a delta batch performs. -/
def stepJ (db : JobDbMap) (jobs : List DbJob) (runs : List DbRun) (id : String) :
    Except String JobStateTransitions :=
  reconcileJobDifferences (dbLookup db id) (repoJobFor jobs id) (runsFor runs id)

theorem ReconcileDifferences_eq_mapM (db : JobDbMap) (jobs : List DbJob) (runs : List DbRun) :
    ReconcileDifferences db jobs runs = (batchJobIds jobs runs).mapM (stepJ db jobs runs) := rfl

theorem stepJ_job_id (db : JobDbMap) (jobs : List DbJob) (runs : List DbRun) (id : String)
    (jst : JobStateTransitions) (hok : stepJ db jobs runs id = .ok jst) :
    ∀ jj, jst.job = some jj → jj.id = id := by
  apply reconcileJobDifferences_job_id (dbLookup db id) (repoJobFor jobs id)
      (runsFor runs id) jst id hok
  · intro j0 h0
    exact dbLookup_id db id j0 h0
  · intro r hr
    exact (repoJobFor_props jobs id r hr).2

/-- Where each observed id ends up after the batch upsert: its own
reconciled snapshot when there is one, its previous snapshot otherwise. -/
theorem first_pass_lookup (jobs : List DbJob) (runs : List DbRun) :
    ∀ (ids : List String) (db acc : JobDbMap) (jsts : List JobStateTransitions),
    ids.Nodup →
    ids.mapM (stepJ db jobs runs) = .ok jsts →
    (∀ id ∈ ids, dbLookup acc id = dbLookup db id) →
    ∀ id ∈ ids, ∃ jst, stepJ db jobs runs id = .ok jst ∧
      dbLookup (upsertTransitions jsts acc) id =
        (match jst.job with | some jj => some jj | none => dbLookup db id) := by
  intro ids
  induction ids with
  | nil => intro db acc jsts _ _ _ id hid; cases hid
  | cons id0 rest ih =>
    intro db acc jsts hnd hmap hagree id hid
    obtain ⟨jst0, jsts2, hf0, hmap2, rfl⟩ := exceptMapM_cons_ok _ id0 rest jsts hmap
    rw [upsertTransitions_cons]
    have hnd0 : id0 ∉ rest := (List.nodup_cons.1 hnd).1
    have hndr : rest.Nodup := (List.nodup_cons.1 hnd).2
    have hrestids : ∀ jst ∈ jsts2, ∀ jj, jst.job = some jj → jj.id ∈ rest := by
      intro jst hjst jj hjj
      obtain ⟨id2, hid2, hfid2⟩ := exceptMapM_mem_ok _ rest jsts2 hmap2 jst hjst
      rw [stepJ_job_id db jobs runs id2 jst hfid2 jj hjj]
      exact hid2
    cases hid with
    | head _ =>
      refine ⟨jst0, hf0, ?_⟩
      rw [upsertTransitions_notouch jsts2 (applyJst acc jst0) id0 ?touch]
      case touch =>
        intro jst hjst jj hjj he
        exact hnd0 (he ▸ hrestids jst hjst jj hjj)
      rw [applyJst]
      cases hj0 : jst0.job with
      | none => exact hagree id0 (List.mem_cons_self id0 rest)
      | some jj =>
        have hjid : jj.id = id0 := stepJ_job_id db jobs runs id0 jst0 hf0 jj hj0
        rw [← hjid]
        exact dbUpsert_lookup_same acc jj
    | tail _ hmem =>
      have hagree2 : ∀ id2 ∈ rest, dbLookup (applyJst acc jst0) id2 = dbLookup db id2 := by
        intro id2 hid2
        rw [applyJst]
        cases hj0 : jst0.job with
        | none => exact hagree id2 (List.mem_cons_of_mem id0 hid2)
        | some jj =>
          have hjid : jj.id = id0 := stepJ_job_id db jobs runs id0 jst0 hf0 jj hj0
          rw [dbUpsert_lookup_other acc jj id2 ?hne]
          case hne =>
            intro he
            rw [he, hjid] at hid2
            exact hnd0 hid2
          exact hagree id2 (List.mem_cons_of_mem id0 hid2)
      exact ih db (applyJst acc jst0) jsts2 hndr hmap2 hagree2 id hmem


/-- Amended C4: applying the same delta batch a second time, starting from
the jobDb produced by the first application, returns that jobDb unchanged —
provided every row that creates a fresh job (no snapshot with its id) is
not already terminal (`succeeded = failed = false`).  Without that proviso
the second application can set the terminal flags the first application's
`NewJob` construction dropped. -/
theorem C4_idempotent_amended (jobs : List DbJob) (runs : List DbRun) (db db1 : JobDbMap)
    (hnew : ∀ r ∈ jobs, dbLookup db r.jobId = none → r.succeeded = false ∧ r.failed = false)
    (h1 : applyDeltaBatch db jobs runs = .ok db1) :
    applyDeltaBatch db1 jobs runs = .ok db1 := by
  cases hrec : ReconcileDifferences db jobs runs with
  | error e =>
    rw [applyDeltaBatch, hrec] at h1
    exact absurd h1 (by simp)
  | ok jsts =>
    rw [applyDeltaBatch, hrec] at h1
    injection h1 with h1
    subst h1
    have hnd : (batchJobIds jobs runs).Nodup := List.nodup_dedup _
    rw [ReconcileDifferences_eq_mapM] at hrec
    have hfpl := first_pass_lookup jobs runs (batchJobIds jobs runs) db db jsts hnd hrec
      (fun id _ => rfl)
    have hsecond : ∀ id ∈ batchJobIds jobs runs,
        ∃ jst2, stepJ (upsertTransitions jsts db) jobs runs id = .ok jst2 ∧
          (∀ jj, jst2.job = some jj →
            dbLookup (upsertTransitions jsts db) id = some jj) := by
      intro id hid
      obtain ⟨jst, hstep, hlook⟩ := hfpl id hid
      cases hj : jst.job with
      | some j1 =>
        rw [hj] at hlook
        have hnew2 : dbLookup db id = none → ∀ r, repoJobFor jobs id = some r →
            r.succeeded = false ∧ r.failed = false := by
          intro hnone r hr
          obtain ⟨hmem, hid2⟩ := repoJobFor_props jobs id r hr
          exact hnew r hmem (by rw [hid2]; exact hnone)
        obtain ⟨jst2, hstep2, hjob2⟩ := reconcileJobDifferences_idem (dbLookup db id)
          (repoJobFor jobs id) (runsFor runs id) jst j1 hstep hj hnew2
        refine ⟨jst2, ?_, ?_⟩
        · rw [stepJ, hlook]
          exact hstep2
        · intro jj hjj
          rw [hjob2] at hjj
          injection hjj with hjj
          rw [← hjj]
          exact hlook
      | none =>
        rw [hj] at hlook
        obtain ⟨hl0, hr0⟩ :=
          reconcileJobDifferences_job_none (dbLookup db id) (repoJobFor jobs id)
            (runsFor runs id) jst hstep hj
        refine ⟨emptyJST, ?_, ?_⟩
        · rw [stepJ, hlook, hl0, hr0]
          exact reconcileJobDifferences_none_none (runsFor runs id)
        · intro jj hjj
          exact absurd hjj (by simp [emptyJST])
    obtain ⟨jsts2, hmap2⟩ := exceptMapM_ok_of_pointwise (stepJ (upsertTransitions jsts db) jobs runs)
      (batchJobIds jobs runs)
      (fun id hid => ⟨(hsecond id hid).choose, (hsecond id hid).choose_spec.1⟩)
    rw [applyDeltaBatch, ReconcileDifferences_eq_mapM, hmap2]
    have hfix : upsertTransitions jsts2 (upsertTransitions jsts db) = upsertTransitions jsts db := by
      apply upsertTransitions_fix
      intro jst2 hjst2 jj hjj
      obtain ⟨id, hid, hstep2⟩ := exceptMapM_mem_ok (stepJ (upsertTransitions jsts db) jobs runs)
        (batchJobIds jobs runs) jsts2 hmap2 jst2 hjst2
      obtain ⟨jst2w, hstep2w, hcovw⟩ := hsecond id hid
      have hdet : jst2w = jst2 := by
        rw [hstep2w] at hstep2
        injection hstep2
      subst hdet
      have hjid : jj.id = id :=
        stepJ_job_id (upsertTransitions jsts db) jobs runs id jst2w hstep2 jj hjj
      rw [hjid]
      exact hcovw jj hjj
    show Except.ok (upsertTransitions jsts2 (upsertTransitions jsts db)) =
      Except.ok (upsertTransitions jsts db)
    rw [hfix]


/-- Amended C9: a repository job row whose scheduling info cannot be
decoded is not skipped: when the row would create a fresh job, the whole
batch reconciliation returns an error, so none of the batch's rows are
applied and the cycle is aborted.  (Monotone-flag "regressions" in a row,
by contrast, are not errors: the regressed flag is simply left set, cf. the
C1 theorem.) -/
theorem C9_decode_error_aborts (db : JobDbMap) (jobs : List DbJob) (runs : List DbRun)
    (r : DbJob) (hr : repoJobFor jobs r.jobId = some r)
    (hnone : dbLookup db r.jobId = none) (hbytes : r.schedulingInfoBytes = none) :
    ∃ e, applyDeltaBatch db jobs runs = .error e := by
  have hmem : r.jobId ∈ batchJobIds jobs runs := by
    obtain ⟨hmemj, -⟩ := repoJobFor_props jobs r.jobId r hr
    rw [batchJobIds]
    apply List.mem_dedup.2
    apply List.mem_append_right
    exact List.mem_map_of_mem (fun z => z.jobId) hmemj
  have hbad : ∀ jst, stepJ db jobs runs r.jobId ≠ .ok jst := by
    intro jst h
    rw [stepJ, hnone, hr] at h
    have herr : schedulerJobFromDatabaseJob r =
        .error ("error unmarshalling scheduling info for job " ++ r.jobId) := by
      simp only [schedulerJobFromDatabaseJob, hbytes]
    rw [reconcileJobDifferences_none_some_err r (runsFor runs r.jobId) _ herr] at h
    exact absurd h (by simp)
  cases hres : applyDeltaBatch db jobs runs with
  | error e => exact ⟨e, rfl⟩
  | ok db2 =>
    exfalso
    rw [applyDeltaBatch] at hres
    cases hrec : ReconcileDifferences db jobs runs with
    | error e => rw [hrec] at hres; exact absurd hres (by simp)
    | ok jsts =>
      rw [ReconcileDifferences_eq_mapM] at hrec
      exact exceptMapM_error_of_mem (stepJ db jobs runs) (batchJobIds jobs runs)
        r.jobId hmem hbad jsts hrec

/-! ### Concrete fixtures for the counterexamples and witnesses -/

/-- Scheduling info fixture. -/
def siC : JobSchedulingInfo :=
  { version := 1, queueTtlSeconds := 0, failFast := false, antiAffinityNodes := [] }

/-- A repository row for a fresh job that is already succeeded. -/
def rowSucceeded : DbJob :=
  { jobId := "j1", jobSet := "s", queue := "q", queued := false, queuedVersion := 2,
    priority := 1, submitted := 0, cancelRequested := false,
    cancelByJobsetRequested := false, cancelled := false, succeeded := true, failed := false,
    schedulingInfoBytes := some siC, schedulingInfoVersion := 1, serial := 1 }

/-- The snapshot the first application of `rowSucceeded` produces. -/
def c4job1 : Job :=
  { id := "j1", jobSet := "s", queue := "q", requestedPriority := 1, schedulingInfo := siC,
    queued := false, queuedVersion := 2, cancelRequested := false,
    cancelByJobsetRequested := false, cancelled := false, succeeded := false, failed := false,
    submitted := 0, runs := [] }

/-- The snapshot the second application of `rowSucceeded` produces. -/
def c4job2 : Job := { c4job1 with succeeded := true }

/-- C4 as stated is false on the code: a delta batch whose job row creates
a fresh, already-succeeded job is not idempotent — the first application
builds the snapshot with `succeeded = false` (`NewJob` takes no terminal
flags) and the second application then sets `succeeded = true`, so applying
the batch twice changes the jobDb a second time. -/
theorem C4_counterexample :
    applyDeltaBatch [] [rowSucceeded] [] = .ok [c4job1] ∧
    applyDeltaBatch [c4job1] [rowSucceeded] [] = .ok [c4job2] ∧
    c4job1 ≠ c4job2 := by
  refine ⟨by rfl, by rfl, by decide⟩

/-- A repository row whose scheduling info fails to unmarshal. -/
def rowBad : DbJob := { rowSucceeded with jobId := "jA", schedulingInfoBytes := none, succeeded := false }

/-- A well-formed repository row for a second job in the same batch. -/
def rowGood : DbJob := { rowSucceeded with jobId := "jB", succeeded := false }

/-- The snapshot `rowGood` alone would produce. -/
def c9jobB : Job := { c4job1 with id := "jB" }

/-- C9 as stated is false on the code: a batch holding an undecodable row
(`rowBad`) and a decodable row (`rowGood`) reconciles to an error — the
offending row is not skipped and the remaining rows of the batch are not
reconciled — although the decodable row alone reconciles fine. -/
theorem C9_counterexample :
    applyDeltaBatch [] [rowBad, rowGood] [] =
      .error "error unmarshalling scheduling info for job jA" ∧
    applyDeltaBatch [] [rowGood] [] = .ok [c9jobB] := by
  refine ⟨by rfl, by rfl⟩


/-! ### Cycle-level lemmas -/

theorem mapPass_cons (f : Job → Job × List SchedulerEvent) (a : Job) (as : JobDbMap) :
    mapPass f (a :: as) = ((f a).1 :: (mapPass f as).1, (f a).2 ++ (mapPass f as).2) := rfl

theorem mapPass_lookup (f : Job → Job × List SchedulerEvent)
    (hid : ∀ j, ((f j).1).id = j.id) :
    ∀ (db : JobDbMap) (id : String),
    dbLookup (mapPass f db).1 id = Option.map (fun j => (f j).1) (dbLookup db id) := by
  intro db id
  induction db with
  | nil => rfl
  | cons a as ih =>
    rw [mapPass_cons]
    simp only []
    rw [dbLookup_cons, dbLookup_cons]
    by_cases h : a.id = id
    · rw [if_pos (by rw [hid]; exact h), if_pos h]
      rfl
    · rw [if_neg (by rw [hid]; exact h), if_neg h]
      exact ih

theorem mapPass_event_mem (f : Job → Job × List SchedulerEvent) :
    ∀ (db : JobDbMap) (id : String) (j : Job) (e : SchedulerEvent),
    dbLookup db id = some j → e ∈ (f j).2 → e ∈ (mapPass f db).2 := by
  intro db
  induction db with
  | nil => intro id j e h; simp [dbLookup] at h
  | cons a as ih =>
    intro id j e h he
    rw [dbLookup_cons] at h
    rw [mapPass_cons]
    simp only []
    by_cases ha : a.id = id
    · rw [if_pos ha] at h
      injection h with h
      subst h
      exact List.mem_append_left _ he
    · rw [if_neg ha] at h
      exact List.mem_append_right _ (ih id j e h he)

theorem cycle_err_eq (ma : Nat) (s : SchedulerState) (i : CycleInput) (e : String)
    (h : applyDeltaBatch s.jobDb i.jobUpdates i.runUpdates = .error e) :
    cycle ma s i = (s, []) := by
  unfold cycle
  rw [h]

theorem cycle_ok_eq (ma : Nat) (s : SchedulerState) (i : CycleInput) (db1 : JobDbMap)
    (h : applyDeltaBatch s.jobDb i.jobUpdates i.runUpdates = .ok db1) :
    cycle ma s i =
      (if i.scheduleFails = true then (s, [])
       else if i.publishFails = true ∨ i.tokenValidAtPublish = false then (s, [])
       else
         ({ jobDb := (mapPass (scheduleJob i.jobsToSchedule i.leaseExecutor i.leaseNode)
              (mapPass cancelJobPass
                (mapPass (leaseReturnedJob ma i.submitCheckerOk)
                  (mapPass (queueTtlJob i.now) db1).1).1).1).1 },
          (mapPass (queueTtlJob i.now) db1).2 ++
          (mapPass (leaseReturnedJob ma i.submitCheckerOk)
            (mapPass (queueTtlJob i.now) db1).1).2 ++
          (mapPass cancelJobPass
            (mapPass (leaseReturnedJob ma i.submitCheckerOk)
              (mapPass (queueTtlJob i.now) db1).1).1).2 ++
          (mapPass (scheduleJob i.jobsToSchedule i.leaseExecutor i.leaseNode)
            (mapPass cancelJobPass
              (mapPass (leaseReturnedJob ma i.submitCheckerOk)
                (mapPass (queueTtlJob i.now) db1).1).1).1).2)) := by
  unfold cycle
  rw [h]


theorem queueTtlJob_id (now : Int) (j : Job) : ((queueTtlJob now j).1).id = j.id := by
  unfold queueTtlJob
  split <;> simp

theorem leaseReturnedJob_id (ma : Nat) (ck : Bool) (j : Job) :
    ((leaseReturnedJob ma ck j).1).id = j.id := by
  unfold leaseReturnedJob
  cases j.latestRun with
  | none => rfl
  | some ru =>
    simp only []
    split
    · split
      · simp
      · split <;> simp
    · rfl

theorem cancelJobPass_id (j : Job) : ((cancelJobPass j).1).id = j.id := by
  unfold cancelJobPass
  split <;> simp

theorem scheduleJob_id (ts : List String) (ex nd : String) (j : Job) :
    ((scheduleJob ts ex nd j).1).id = j.id := by
  unfold scheduleJob
  split <;> simp

theorem queueTtlJob_skip (now : Int) (j : Job)
    (h : j.queued = false ∨ j.cancelRequested = true ∨ j.schedulingInfo.queueTtlSeconds = 0) :
    queueTtlJob now j = (j, []) := by
  unfold queueTtlJob
  rw [if_neg]
  rintro ⟨h1, h2, h3, h4, h5⟩
  rcases h with h | h | h
  · rw [h1] at h; exact absurd h (by simp)
  · rw [h2] at h; exact absurd h (by simp)
  · omega

theorem queueTtlJob_fires (now : Int) (j : Job) (hq : j.queued = true)
    (hcr : j.cancelRequested = false) (hterm : j.inTerminalState = false)
    (httl : 0 < j.schedulingInfo.queueTtlSeconds)
    (hexp : (j.schedulingInfo.queueTtlSeconds : Int) < now - j.submitted) :
    queueTtlJob now j = (j.withCancelRequested true, [.cancelJob j.id]) := by
  unfold queueTtlJob
  rw [if_pos ⟨hq, hcr, hterm, httl, hexp⟩]

theorem leaseReturnedJob_skip_queued (ma : Nat) (ck : Bool) (j : Job) (hq : j.queued = true) :
    leaseReturnedJob ma ck j = (j, []) := by
  unfold leaseReturnedJob
  cases j.latestRun with
  | none => rfl
  | some ru =>
    simp only []
    rw [if_neg]
    rintro ⟨h1, -⟩
    rw [hq] at h1
    exact absurd h1 (by simp)

theorem leaseReturnedJob_requeues (ma : Nat) (j : Job) (ru : JobRun)
    (hlatest : j.latestRun = some ru) (hq : j.queued = false)
    (hterm : j.inTerminalState = false) (hret : ru.returned = true)
    (hmax : (j.runs.filter (fun x => x.runAttempted)).length < ma)
    (hff : j.schedulingInfo.failFast = false) :
    leaseReturnedJob ma true j =
      (((j.withJobSchedulingInfo
          (if ru.runAttempted then
            { j.schedulingInfo with
              version := j.schedulingInfo.version + 1
              antiAffinityNodes := j.schedulingInfo.antiAffinityNodes ++ [ru.nodeName] }
           else j.schedulingInfo)).withQueued true).withQueuedVersion (j.queuedVersion + 1),
       [.jobRequeued j.id]) := by
  unfold leaseReturnedJob
  rw [hlatest]
  simp only []
  rw [if_pos ⟨hq, hterm, hret⟩]
  rw [if_neg ?hng]
  case hng =>
    rintro (h | h)
    · omega
    · rw [hff] at h; exact absurd h (by simp)
  exact if_pos trivial

theorem cancelJobPass_skip (j : Job) (h : j.cancelRequested = false) :
    cancelJobPass j = (j, []) := by
  unfold cancelJobPass
  rw [if_neg]
  rintro ⟨h1, -⟩
  rw [h] at h1
  exact absurd h1 (by simp)

theorem cancelJobPass_fires (j : Job) (hcr : j.cancelRequested = true)
    (hterm : j.inTerminalState = false) :
    cancelJobPass j = ((j.withCancelled true).withQueued false, [.cancelledJob j.id]) := by
  unfold cancelJobPass
  rw [if_pos ⟨hcr, hterm⟩]

theorem scheduleJob_skip_notqueued (ts : List String) (ex nd : String) (j : Job)
    (h : j.queued = false) : scheduleJob ts ex nd j = (j, []) := by
  unfold scheduleJob
  rw [if_neg]
  rintro ⟨-, h2, -⟩
  rw [h] at h2
  exact absurd h2 (by simp)

theorem scheduleJob_skip_notmem (ts : List String) (ex nd : String) (j : Job)
    (h : j.id ∉ ts) : scheduleJob ts ex nd j = (j, []) := by
  unfold scheduleJob
  rw [if_neg]
  rintro ⟨h1, -⟩
  exact h h1

theorem scheduleJob_fires (ts : List String) (ex nd : String) (j : Job)
    (hmem : j.id ∈ ts) (hq : j.queued = true) (hterm : j.inTerminalState = false) :
    scheduleJob ts ex nd j =
      (((j.withAttachedRun (newLeaseRun j ex nd)).withQueued false).withQueuedVersion
         (j.queuedVersion + 1),
       [.jobRunLeased j.id]) := by
  unfold scheduleJob
  rw [if_pos ⟨hmem, hq, hterm⟩]


/-- C5: for any cycle in which the schedule step or the publish step
fails, the jobDb after the cycle equals the jobDb before the cycle and no
events become visible: the staged transaction is rolled back.  (The cycle
driver is modelled from the spec; reconciliation uses the source
functions.) -/
theorem C5_failed_cycle_rolls_back (ma : Nat) (s : SchedulerState) (i : CycleInput)
    (h : i.scheduleFails = true ∨ i.publishFails = true) :
    cycle ma s i = (s, []) := by
  cases happ : applyDeltaBatch s.jobDb i.jobUpdates i.runUpdates with
  | error e => exact cycle_err_eq ma s i e happ
  | ok db1 =>
    rw [cycle_ok_eq ma s i db1 happ]
    by_cases hs : i.scheduleFails = true
    · rw [if_pos hs]
    · rw [if_neg hs]
      rcases h with h | h
      · exact absurd h hs
      · rw [if_pos (Or.inl h)]

/-- C8: a cycle whose leader token is invalid at publish time publishes no
events and commits no jobDb changes, and a later cycle holding a valid
token publishes again — here the lease event for a queued job the
scheduling algorithm selects.  The model never publishes while the token
is invalid.  (The cycle driver is modelled from the spec.) -/
theorem C8_token_fencing (ma : Nat) (s : SchedulerState) (i i2 : CycleInput)
    (hinv : i.tokenValidAtPublish = false)
    (j : Job) (hj : dbLookup s.jobDb j.id = some j)
    (hq : j.queued = true) (hterm : j.inTerminalState = false)
    (hcr : j.cancelRequested = false) (httl : j.schedulingInfo.queueTtlSeconds = 0)
    (hsel : j.id ∈ i2.jobsToSchedule)
    (hval : i2.tokenValidAtPublish = true) (hpf : i2.publishFails = false)
    (hsf : i2.scheduleFails = false)
    (hjd : i2.jobUpdates = []) (hrd : i2.runUpdates = []) :
    cycle ma s i = (s, []) ∧
    SchedulerEvent.jobRunLeased j.id ∈ (cycle ma (cycle ma s i).1 i2).2 := by
  have h1 : cycle ma s i = (s, []) := by
    cases happ : applyDeltaBatch s.jobDb i.jobUpdates i.runUpdates with
    | error e => exact cycle_err_eq ma s i e happ
    | ok db1 =>
      rw [cycle_ok_eq ma s i db1 happ]
      by_cases hs : i.scheduleFails = true
      · rw [if_pos hs]
      · rw [if_neg hs, if_pos (Or.inr hinv)]
  refine ⟨h1, ?_⟩
  rw [h1]
  have happ2 : applyDeltaBatch s.jobDb i2.jobUpdates i2.runUpdates = .ok s.jobDb := by
    rw [hjd, hrd]
    rfl
  rw [cycle_ok_eq ma s i2 s.jobDb happ2]
  rw [if_neg (by rw [hsf]; simp), if_neg ?hpub]
  case hpub =>
    rintro (h | h)
    · rw [hpf] at h; exact absurd h (by simp)
    · rw [hval] at h; exact absurd h (by simp)
  have l2 : dbLookup (mapPass (queueTtlJob i2.now) s.jobDb).1 j.id = some j := by
    rw [mapPass_lookup (queueTtlJob i2.now) (queueTtlJob_id i2.now) s.jobDb j.id, hj]
    simp [queueTtlJob_skip i2.now j (Or.inr (Or.inr httl))]
  have l3 : dbLookup (mapPass (leaseReturnedJob ma i2.submitCheckerOk)
      (mapPass (queueTtlJob i2.now) s.jobDb).1).1 j.id = some j := by
    rw [mapPass_lookup (leaseReturnedJob ma i2.submitCheckerOk)
      (leaseReturnedJob_id ma i2.submitCheckerOk) _ j.id, l2]
    simp [leaseReturnedJob_skip_queued ma i2.submitCheckerOk j hq]
  have l4 : dbLookup (mapPass cancelJobPass
      (mapPass (leaseReturnedJob ma i2.submitCheckerOk)
        (mapPass (queueTtlJob i2.now) s.jobDb).1).1).1 j.id = some j := by
    rw [mapPass_lookup cancelJobPass cancelJobPass_id _ j.id, l3]
    simp [cancelJobPass_skip j hcr]
  have hev : SchedulerEvent.jobRunLeased j.id ∈
      (scheduleJob i2.jobsToSchedule i2.leaseExecutor i2.leaseNode j).2 := by
    rw [scheduleJob_fires i2.jobsToSchedule i2.leaseExecutor i2.leaseNode j hsel hq hterm]
    exact List.mem_singleton.2 rfl
  exact List.mem_append_right _
    (mapPass_event_mem (scheduleJob i2.jobsToSchedule i2.leaseExecutor i2.leaseNode)
      _ j.id j (SchedulerEvent.jobRunLeased j.id) l4 hev)


/-- C6: if the latest run of a leased (non-queued, non-terminal,
not-cancel-requested) job ended with returned and run-attempted set — and
the attempt count is still below the maximum, the job is not fail-fast and
the submit checker accepts — then the cycle augments the job's scheduling
info with a node anti-affinity for the node that ran it, increments the
scheduling-info version, increments the queued-version, sets queued, and
emits a `JobRequeued` event.  (The cycle driver is modelled from the
spec.) -/
theorem C6_requeue_on_attempted_return (ma : Nat) (s : SchedulerState) (i : CycleInput)
    (j : Job) (ru : JobRun)
    (hj : dbLookup s.jobDb j.id = some j)
    (hlatest : j.latestRun = some ru)
    (hret : ru.returned = true) (hatt : ru.runAttempted = true)
    (hq : j.queued = false) (hterm : j.inTerminalState = false)
    (hcr : j.cancelRequested = false)
    (hmax : (j.runs.filter (fun x => x.runAttempted)).length < ma)
    (hff : j.schedulingInfo.failFast = false)
    (hchk : i.submitCheckerOk = true)
    (hsf : i.scheduleFails = false) (hpf : i.publishFails = false)
    (hval : i.tokenValidAtPublish = true)
    (hjd : i.jobUpdates = []) (hrd : i.runUpdates = [])
    (hns : j.id ∉ i.jobsToSchedule) :
    SchedulerEvent.jobRequeued j.id ∈ (cycle ma s i).2 ∧
    ∃ j2, dbLookup (cycle ma s i).1.jobDb j.id = some j2 ∧
      j2.queued = true ∧ j2.queuedVersion = j.queuedVersion + 1 ∧
      j2.schedulingInfo.version = j.schedulingInfo.version + 1 ∧
      j2.schedulingInfo.antiAffinityNodes =
        j.schedulingInfo.antiAffinityNodes ++ [ru.nodeName] := by
  have happ : applyDeltaBatch s.jobDb i.jobUpdates i.runUpdates = .ok s.jobDb := by
    rw [hjd, hrd]
    rfl
  rw [cycle_ok_eq ma s i s.jobDb happ]
  rw [if_neg (by rw [hsf]; simp), if_neg ?hpub]
  case hpub =>
    rintro (h | h)
    · rw [hpf] at h; exact absurd h (by simp)
    · rw [hval] at h; exact absurd h (by simp)
  have l2 : dbLookup (mapPass (queueTtlJob i.now) s.jobDb).1 j.id = some j := by
    rw [mapPass_lookup (queueTtlJob i.now) (queueTtlJob_id i.now) s.jobDb j.id, hj]
    simp [queueTtlJob_skip i.now j (Or.inl hq)]
  have hreq := leaseReturnedJob_requeues ma j ru hlatest hq hterm hret hmax hff
  rw [if_pos hatt] at hreq
  set j2 : Job :=
    ((j.withJobSchedulingInfo
        { j.schedulingInfo with
          version := j.schedulingInfo.version + 1
          antiAffinityNodes := j.schedulingInfo.antiAffinityNodes ++ [ru.nodeName] }).withQueued
      true).withQueuedVersion (j.queuedVersion + 1) with hj2
  have l3 : dbLookup (mapPass (leaseReturnedJob ma i.submitCheckerOk)
      (mapPass (queueTtlJob i.now) s.jobDb).1).1 j.id = some j2 := by
    rw [mapPass_lookup (leaseReturnedJob ma i.submitCheckerOk)
      (leaseReturnedJob_id ma i.submitCheckerOk) _ j.id, l2]
    rw [hchk]
    simp only [Option.map, hreq]
  have hj2cr : j2.cancelRequested = false := by
    rw [hj2]
    simp [hcr]
  have hj2id : j2.id = j.id := by
    rw [hj2]
    simp
  have l4 : dbLookup (mapPass cancelJobPass
      (mapPass (leaseReturnedJob ma i.submitCheckerOk)
        (mapPass (queueTtlJob i.now) s.jobDb).1).1).1 j.id = some j2 := by
    rw [mapPass_lookup cancelJobPass cancelJobPass_id _ j.id, l3]
    simp [cancelJobPass_skip j2 hj2cr]
  have l5 : dbLookup (mapPass (scheduleJob i.jobsToSchedule i.leaseExecutor i.leaseNode)
      (mapPass cancelJobPass
        (mapPass (leaseReturnedJob ma i.submitCheckerOk)
          (mapPass (queueTtlJob i.now) s.jobDb).1).1).1).1 j.id = some j2 := by
    rw [mapPass_lookup (scheduleJob i.jobsToSchedule i.leaseExecutor i.leaseNode)
      (scheduleJob_id i.jobsToSchedule i.leaseExecutor i.leaseNode) _ j.id, l4]
    simp only [Option.map]
    rw [scheduleJob_skip_notmem i.jobsToSchedule i.leaseExecutor i.leaseNode j2
      (by rw [hj2id]; exact hns)]
  have hev : SchedulerEvent.jobRequeued j.id ∈
      (leaseReturnedJob ma i.submitCheckerOk j).2 := by
    rw [hchk, hreq]
    exact List.mem_singleton.2 rfl
  refine ⟨?_, j2, l5, ?_, ?_, ?_, ?_⟩
  · apply List.mem_append_left
    apply List.mem_append_left
    apply List.mem_append_right
    exact mapPass_event_mem (leaseReturnedJob ma i.submitCheckerOk)
      _ j.id j (SchedulerEvent.jobRequeued j.id) l2 hev
  · rw [hj2]; simp
  · rw [hj2]; simp
  · rw [hj2]; simp
  · rw [hj2]; simp


/-- C7: for any queued job (not yet cancel-requested, non-terminal) whose
time since submission exceeds its positive queue TTL, a single successful
cycle sets cancel-requested, emits both a `CancelJob` and a `CancelledJob`
event for the job, and leaves the job terminal (cancelled, out of the
queue).  (The cycle driver is modelled from the spec.) -/
theorem C7_queue_ttl_cancels (ma : Nat) (s : SchedulerState) (i : CycleInput) (j : Job)
    (hj : dbLookup s.jobDb j.id = some j)
    (hq : j.queued = true) (hcr : j.cancelRequested = false)
    (hterm : j.inTerminalState = false)
    (httl : 0 < j.schedulingInfo.queueTtlSeconds)
    (hexp : (j.schedulingInfo.queueTtlSeconds : Int) < i.now - j.submitted)
    (hsf : i.scheduleFails = false) (hpf : i.publishFails = false)
    (hval : i.tokenValidAtPublish = true)
    (hjd : i.jobUpdates = []) (hrd : i.runUpdates = []) :
    SchedulerEvent.cancelJob j.id ∈ (cycle ma s i).2 ∧
    SchedulerEvent.cancelledJob j.id ∈ (cycle ma s i).2 ∧
    ∃ j2, dbLookup (cycle ma s i).1.jobDb j.id = some j2 ∧
      j2.cancelRequested = true ∧ j2.cancelled = true ∧ j2.queued = false ∧
      j2.inTerminalState = true := by
  have happ : applyDeltaBatch s.jobDb i.jobUpdates i.runUpdates = .ok s.jobDb := by
    rw [hjd, hrd]
    rfl
  rw [cycle_ok_eq ma s i s.jobDb happ]
  rw [if_neg (by rw [hsf]; simp), if_neg ?hpub]
  case hpub =>
    rintro (h | h)
    · rw [hpf] at h; exact absurd h (by simp)
    · rw [hval] at h; exact absurd h (by simp)
  have hfire := queueTtlJob_fires i.now j hq hcr hterm httl hexp
  have l2 : dbLookup (mapPass (queueTtlJob i.now) s.jobDb).1 j.id =
      some (j.withCancelRequested true) := by
    rw [mapPass_lookup (queueTtlJob i.now) (queueTtlJob_id i.now) s.jobDb j.id, hj]
    simp only [Option.map, hfire]
  have hq2 : (j.withCancelRequested true).queued = true := by simp [hq]
  have l3 : dbLookup (mapPass (leaseReturnedJob ma i.submitCheckerOk)
      (mapPass (queueTtlJob i.now) s.jobDb).1).1 j.id =
      some (j.withCancelRequested true) := by
    rw [mapPass_lookup (leaseReturnedJob ma i.submitCheckerOk)
      (leaseReturnedJob_id ma i.submitCheckerOk) _ j.id, l2]
    simp only [Option.map]
    rw [leaseReturnedJob_skip_queued ma i.submitCheckerOk (j.withCancelRequested true) hq2]
  have hterm2 : (j.withCancelRequested true).inTerminalState = false := by
    simp only [Job.inTerminalState] at hterm ⊢
    simpa using hterm
  have hcfire := cancelJobPass_fires (j.withCancelRequested true) (by simp) hterm2
  have l4 : dbLookup (mapPass cancelJobPass
      (mapPass (leaseReturnedJob ma i.submitCheckerOk)
        (mapPass (queueTtlJob i.now) s.jobDb).1).1).1 j.id =
      some (((j.withCancelRequested true).withCancelled true).withQueued false) := by
    rw [mapPass_lookup cancelJobPass cancelJobPass_id _ j.id, l3]
    simp only [Option.map, hcfire]
  have l5 : dbLookup (mapPass (scheduleJob i.jobsToSchedule i.leaseExecutor i.leaseNode)
      (mapPass cancelJobPass
        (mapPass (leaseReturnedJob ma i.submitCheckerOk)
          (mapPass (queueTtlJob i.now) s.jobDb).1).1).1).1 j.id =
      some (((j.withCancelRequested true).withCancelled true).withQueued false) := by
    rw [mapPass_lookup (scheduleJob i.jobsToSchedule i.leaseExecutor i.leaseNode)
      (scheduleJob_id i.jobsToSchedule i.leaseExecutor i.leaseNode) _ j.id, l4]
    simp only [Option.map]
    rw [scheduleJob_skip_notqueued i.jobsToSchedule i.leaseExecutor i.leaseNode
      (((j.withCancelRequested true).withCancelled true).withQueued false) (by simp)]
  refine ⟨?_, ?_, _, l5, by simp, by simp, by simp, by simp [Job.inTerminalState]⟩
  · apply List.mem_append_left
    apply List.mem_append_left
    apply List.mem_append_left
    apply mapPass_event_mem (queueTtlJob i.now) s.jobDb j.id j _ hj
    rw [hfire]
    exact List.mem_singleton.2 rfl
  · apply List.mem_append_left
    apply List.mem_append_right
    apply mapPass_event_mem cancelJobPass _ j.id (j.withCancelRequested true) _ l3
    rw [hcfire]
    exact List.mem_singleton.2 rfl


/-! ### Witness fixtures -/

/-- A run snapshot with some monotone flags already set. -/
def w1run : JobRun :=
  { runId := 7, jobId := "j1", created := 0, executor := "e", nodeId := "e-n", nodeName := "n",
    scheduledAtPriority := none, running := false, succeeded := false, failed := true,
    cancelled := false, returned := false, runAttempted := true }

/-- A job snapshot with a set flag and one run. -/
def w1job : Job := { c4job1 with succeeded := true, runs := [w1run] }

/-- A repository row updating `w1job`. -/
def w1row : DbJob := { rowSucceeded with succeeded := false, cancelRequested := true }

/-- A repository run row updating `w1run`. -/
def w1dr : DbRun :=
  { runId := 7, jobId := "j1", jobSet := "s", executor := "e", node := "n", created := 0,
    scheduledAtPriority := none, pendingTimestampSet := false, running := true,
    succeeded := false, failed := false, cancelled := false, returned := false,
    runAttempted := false, serial := 1 }

/-- The transitions the reconciliation of the witness fixtures produces. -/
def w1jst : JobStateTransitions :=
  match reconcileJobDifferences (some w1job) (some w1row) [w1dr] with
  | .ok jst => jst
  | .error _ => emptyJST

/-- The reconciled witness snapshot. -/
def w1jobr : Job := w1jst.job.getD w1job

theorem C1_monotone_flags_witness : jobFlagsLe w1job w1jobr :=
  (C1_monotone_flags w1job (some w1row) [w1dr] w1jst w1jobr (by rfl) (by rfl)).1

/-- The transitions reconciling `rowGood` into an empty jobDb produces. -/
def w2jst : JobStateTransitions :=
  match reconcileJobDifferences none (some rowGood) [] with
  | .ok jst => jst
  | .error _ => emptyJST

theorem C2_four_case_merge_witness : w2jst.queued = true ∧ w2jst.job = some c9jobB := by
  obtain ⟨jst, hok, hqd, hjob⟩ := ((C2_four_case_merge []).2.1 rowGood).2 c9jobB (by rfl)
  have he : w2jst = jst := by
    unfold w2jst
    rw [hok]
  rw [he]
  refine ⟨hqd, ?_⟩
  rw [hjob]
  rfl

/-- Decoded scheduling info with a newer version. -/
def siC2 : JobSchedulingInfo := { siC with version := 3 }

/-- A repository row whose version gates are both open. -/
def w3row : DbJob :=
  { rowGood with
      jobId := "j1"
      schedulingInfoVersion := 5
      schedulingInfoBytes := some siC2
      queuedVersion := 5
      queued := true }

/-- The transitions of the C3 witness reconciliation. -/
def w3jst : JobStateTransitions :=
  match reconcileJobDifferences (some c4job1) (some w3row) [] with
  | .ok jst => jst
  | .error _ => emptyJST

/-- The reconciled C3 witness snapshot. -/
def w3jobr : Job := w3jst.job.getD c4job1

theorem C3_version_gates_witness :
    w3row.schedulingInfoBytes = some w3jobr.schedulingInfo ∧
    w3jobr.queued = w3row.queued ∧ w3jobr.queuedVersion = w3row.queuedVersion := by
  have h := C3_version_gates c4job1 w3row [] w3jst w3jobr (by rfl) (by rfl)
  exact ⟨h.1 (by decide), (h.2.2.1 (by decide)).1, (h.2.2.1 (by decide)).2⟩

theorem C4_idempotent_amended_witness :
    applyDeltaBatch [c9jobB] [rowGood] [] = .ok [c9jobB] := by
  apply C4_idempotent_amended [rowGood] [] [] [c9jobB] ?hnew (by rfl)
  case hnew =>
    intro r hr hl
    rw [List.mem_singleton] at hr
    subst hr
    exact ⟨rfl, rfl⟩

theorem C9_decode_error_aborts_witness :
    (applyDeltaBatch [] [rowBad, rowGood] []).isOk = false := by
  obtain ⟨e, he⟩ :=
    C9_decode_error_aborts [] [rowBad, rowGood] [] rowBad (by rfl) (by rfl) (by rfl)
  rw [he]
  rfl

/-- Transitions used in the C10 witness. -/
def w10jst : JobStateTransitions := { emptyJST with queued := true }

/-- Run transitions used in the C10 witness. -/
def w10rst : RunStateTransitions := { emptyRST with succeeded := true }

theorem C10_applyRunStateTransitions_witness :
    (w10jst.applyRunStateTransitions w10rst).queued = true ∧
    (w10jst.applyRunStateTransitions w10rst).succeeded = true := by
  obtain ⟨e1, e2, e3, e4, e5, e6, e7, e8, e9, m1, m2, m3, m4, m5, m6, m7, m8⟩ :=
    C10_applyRunStateTransitions w10jst w10rst
  refine ⟨m1 rfl, ?_⟩
  rw [e8]
  rfl


/-- A queued job for the cycle witnesses. -/
def w8job : Job := { c4job1 with queued := true }

/-- Cycle input injecting a schedule failure. -/
def w5in : CycleInput :=
  { jobUpdates := [], runUpdates := [], jobsToSchedule := [], leaseExecutor := "e",
    leaseNode := "n", submitCheckerOk := true, scheduleFails := true, publishFails := false,
    tokenValidAtPublish := true, now := 0 }

theorem C5_failed_cycle_rolls_back_witness :
    cycle 2 ⟨[w8job]⟩ w5in = (⟨[w8job]⟩, []) :=
  C5_failed_cycle_rolls_back 2 ⟨[w8job]⟩ w5in (Or.inl rfl)

/-- Cycle input with an invalidated leader token. -/
def w8in : CycleInput := { w5in with scheduleFails := false, tokenValidAtPublish := false }

/-- Follow-up cycle input holding a valid token and a job to schedule. -/
def w8in2 : CycleInput :=
  { w5in with scheduleFails := false, jobsToSchedule := ["j1"] }

theorem C8_token_fencing_witness :
    cycle 2 ⟨[w8job]⟩ w8in = (⟨[w8job]⟩, []) ∧
    SchedulerEvent.jobRunLeased w8job.id ∈ (cycle 2 (cycle 2 ⟨[w8job]⟩ w8in).1 w8in2).2 :=
  C8_token_fencing 2 ⟨[w8job]⟩ w8in w8in2 rfl w8job (by rfl) rfl rfl rfl rfl
    (by decide) rfl rfl rfl rfl rfl

/-- A returned, attempted run for the C6 witness. -/
def w6run : JobRun :=
  { runId := 1, jobId := "j1", created := 0, executor := "e", nodeId := "e-n", nodeName := "n",
    scheduledAtPriority := none, running := false, succeeded := false, failed := true,
    cancelled := false, returned := true, runAttempted := true }

/-- A leased job whose latest run returned after an attempt. -/
def w6job : Job := { c4job1 with runs := [w6run] }

/-- Cycle input for the C6 witness: no failures, checker accepts. -/
def w6in : CycleInput := { w5in with scheduleFails := false }

theorem C6_requeue_on_attempted_return_witness :
    SchedulerEvent.jobRequeued w6job.id ∈ (cycle 2 ⟨[w6job]⟩ w6in).2 :=
  (C6_requeue_on_attempted_return 2 ⟨[w6job]⟩ w6in w6job w6run (by rfl) (by rfl) rfl rfl
    rfl rfl rfl (by decide) rfl rfl rfl rfl rfl rfl rfl (by decide)).1

/-- Scheduling info carrying a queue TTL. -/
def siTtl : JobSchedulingInfo := { siC with queueTtlSeconds := 2 }

/-- A queued job whose queue TTL is expired at `now = 10`. -/
def w7job : Job := { c4job1 with queued := true, schedulingInfo := siTtl }

/-- Cycle input for the C7 witness. -/
def w7in : CycleInput := { w5in with scheduleFails := false, now := 10 }

theorem C7_queue_ttl_cancels_witness :
    SchedulerEvent.cancelJob w7job.id ∈ (cycle 2 ⟨[w7job]⟩ w7in).2 ∧
    SchedulerEvent.cancelledJob w7job.id ∈ (cycle 2 ⟨[w7job]⟩ w7in).2 := by
  have h := C7_queue_ttl_cancels 2 ⟨[w7job]⟩ w7in w7job (by rfl) rfl rfl rfl (by decide)
    (by decide) rfl rfl rfl rfl rfl
  exact ⟨h.1, h.2.1⟩

end Armada
